import Mathlib

/-!
Shallow embedding of the loxrs tree-walking interpreter core: the Resolver
(src/analizer/resolver.rs), the Environment (src/runtime/env.rs) and the
Evaluator with its runtime object model (src/runtime/interpreter.rs,
src/runtime/obj.rs), together with theorems settling the frozen claims.

Modelling conventions:
* Rust `HashMap` is modelled by its observable interface, a lookup function
  `α → Option β` (`FMap`); insertion order is immaterial for a hash map.
* Rust `f64` is modelled by `Int`. No claim settled here depends on
  float-specific behaviour (NaN, rounding, signed zero).
* `Rc<RefCell<Env>>` cells live in a heap (`EnvHeap`), addressed by `EnvRef`
  indices; `Rc<RefCell<LoxInstance>>` likewise in an instance heap. The model
  never deallocates: in every execution examined here no dangling `Weak`
  parent is ever dereferenced, so `Weak` parents are plain optional indices.
* A Rust panic (an `unwrap` of `None`) is the `Res.panic` outcome; fuel
  exhaustion of the model is the distinct `Res.timeout` outcome, which never
  occurs when enough fuel is supplied.
-/

namespace Loxrs

/-! ### Finite maps (Rust HashMap) -/

/-- HashMap modelled as a lookup function. -/
def FMap (α β : Type) : Type := α → Option β

namespace FMap

def empty {α β : Type} : FMap α β := fun _ => none

def insert {α β : Type} [DecidableEq α] (m : FMap α β) (k : α) (v : β) :
    FMap α β :=
  fun k2 => if k2 = k then some v else m k2

def contains {α β : Type} (m : FMap α β) (k : α) : Bool :=
  (m k).isSome

end FMap

/-! ### AST (src/ast/expr.rs, src/ast/stmt.rs data model used by the
runtime visitors in src/ast/visitor.rs) -/

/-- Number literals and values; `f64` modelled as `Int` (see header). -/
abbrev LoxNum := Int

/-- LiteralData (ast/expr.rs). -/
inductive LiteralData : Type
  | nil
  | bool (b : Bool)
  | stringLit (s : String)
  | number (n : LoxNum)
deriving DecidableEq, Repr

inductive UnaryOper : Type
  | not
  | minus
deriving DecidableEq, Repr

inductive BinaryOper : Type
  | minus | plus | div | mul
  | equal | notEqual
  | less | lessEqual | greater | greaterEqual
deriving DecidableEq, Repr

inductive LogicOper : Type
  | or
  | and
deriving DecidableEq, Repr

/-- VarUseData: a variable use, carrying the process-unique id assigned at
parse time (`VarUseId` flattened to a `Nat`). It is the distance-map key. -/
structure VarUseData : Type where
  name : String
  id : Nat
deriving DecidableEq, Repr

/-- Expr, with the variants dispatched by `ExprVisitor` in ast/visitor.rs.
`call` carries `Option<Args>` as in ast/expr.rs (`()` parses to `None`).
The receiver keyword is represented as a use of the implicit name `"@"`
(the name the Resolver pre-declares and `LoxUserFn::bind` defines). -/
inductive Expr : Type
  | literal (lit : LiteralData)
  | unary (oper : UnaryOper) (expr : Expr)
  | binary (left : Expr) (oper : BinaryOper) (right : Expr)
  | logic (left : Expr) (oper : LogicOper) (right : Expr)
  | grouping (expr : Expr)
  | varUse (v : VarUseData)
  | assign (assigned : VarUseData) (expr : Expr)
  | call (callee : Expr) (args : Option (List Expr))
  | get (body : Expr) (name : String)
  | set (body : Expr) (name : String) (value : Expr)
deriving Repr

/- Statements (ast/stmt.rs). `FnDeclArgs.params` is `Option<Params>` as
produced by the parser (lexer/parser.rs `decl_fn`) and consumed by the
interpreter. `IfArgs.if_true` is a block of statements (`BlockArgs`). -/
mutual
inductive Stmt : Type
  | exprStmt (e : Expr)
  | fnDecl (f : FnDeclArgs)
  | print (e : Expr)
  | varDecl (name : String) (init : Expr)
  | ifStmt (args : IfArgs)
  | retStmt (e : Expr)
  | whileStmt (condition : Expr) (block : List Stmt)
  | blockStmt (stmts : List Stmt)
  | classDecl (name : String) (methods : List FnDeclArgs)
inductive IfArgs : Type
  | mk (condition : Expr) (ifTrue : List Stmt) (ifFalse : Option ElseBranch)
inductive ElseBranch : Type
  | justElse (stmts : List Stmt)
  | elseIf (args : IfArgs)
inductive FnDeclArgs : Type
  | mk (name : String) (body : List Stmt) (params : Option (List String))
end

def FnDeclArgs.name : FnDeclArgs → String
  | .mk n _ _ => n

def FnDeclArgs.body : FnDeclArgs → List Stmt
  | .mk _ b _ => b

def FnDeclArgs.params : FnDeclArgs → Option (List String)
  | .mk _ _ p => p

/-! ### Runtime errors (src/runtime/mod.rs) -/

inductive RuntimeError : Type
  | mismatchedType
  | undefined (name : String)
  | duplicateDeclaration (name : String)
  | wrongNumberOfArguments
  | notForDotOperator
  | noFieldWithName (name : String)
  | reassignDisabled
  | cantBind
deriving DecidableEq, Repr

/-- Outcome of a fallible runtime operation: `Result<T, RuntimeError>`
extended with `panic` (a Rust panic) and `timeout` (model fuel ran out). -/
inductive Res (α : Type) : Type
  | ok (a : α)
  | err (e : RuntimeError)
  | panic
  | timeout

/-! ### Runtime objects (src/runtime/obj.rs) -/

/-- LoxValue (obj.rs). -/
inductive LoxValue : Type
  | nil
  | bool (b : Bool)
  | stringLit (s : String)
  | number (n : LoxNum)
deriving DecidableEq, Repr

/-- Reference into the environment heap (an `Rc<RefCell<Env>>`). -/
abbrev EnvRef := Nat

/-- Reference into the instance heap (an `Rc<RefCell<LoxInstance>>`). -/
abbrev InstRef := Nat

/- LoxObj / LoxFn / LoxUserFn / LoxClass (obj.rs). `LoxClass.methods` is
a HashMap built by inserting each declared method in order; it is modelled
as an association list with replace-on-insert. -/
mutual
inductive LoxObj : Type
  | value (v : LoxValue)
  | callable (f : LoxFn)
  | classObj (c : LoxClass)
  | instanceObj (r : InstRef)
inductive LoxFn : Type
  | user (f : LoxUserFn)
  | clock
inductive LoxUserFn : Type
  | mk (body : List Stmt) (params : Option (List String)) (closure : EnvRef)
inductive LoxClass : Type
  | mk (name : String) (methods : List (String × LoxFn))
end

def LoxUserFn.body : LoxUserFn → List Stmt
  | .mk b _ _ => b

def LoxUserFn.params : LoxUserFn → Option (List String)
  | .mk _ p _ => p

def LoxUserFn.closure : LoxUserFn → EnvRef
  | .mk _ _ c => c

def LoxClass.name : LoxClass → String
  | .mk n _ => n

def LoxClass.methods : LoxClass → List (String × LoxFn)
  | .mk _ m => m

def LoxObj.nil : LoxObj := .value .nil

def LoxObj.bool (b : Bool) : LoxObj := .value (.bool b)

/-- LoxValue::from_lit (obj.rs): pure total mapping from literals. -/
def LoxValue.from_lit : LiteralData → LoxValue
  | .nil => .nil
  | .bool b => .bool b
  | .stringLit s => .stringLit s
  | .number n => .number n

def LoxObj.from_lit (l : LiteralData) : LoxObj := .value (LoxValue.from_lit l)

/-- LoxObj::is_truthy (obj.rs lines 70-80), translated exactly: only a
non-`Value` short-circuits to `false`; then `Nil | Bool(true)` map to `true`
and every other value to `false`. -/
def LoxObj.is_truthy : LoxObj → Bool
  | .value v =>
    match v with
    | .nil => true
    | .bool true => true
    | _ => false
  | _ => false

def LoxObj.as_value : LoxObj → Option LoxValue
  | .value v => some v
  | _ => none

def LoxObj.as_num : LoxObj → Option LoxNum
  | .value (.number n) => some n
  | _ => none

/-- LoxClass::find_method (obj.rs): HashMap lookup over the method table. -/
def LoxClass.find_method (c : LoxClass) (name : String) : Option LoxFn :=
  (c.methods.find? (fun p => p.1 = name)).map (·.2)

/-- Replace-on-insert for the association-list model of HashMap. -/
def alistInsert {β : Type} (m : List (String × β)) (k : String) (v : β) :
    List (String × β) :=
  match m with
  | [] => [(k, v)]
  | (k2, v2) :: tl =>
    if k2 = k then (k, v) :: tl else (k2, v2) :: alistInsert tl k v

/-! ### Environment (src/runtime/env.rs)

An `Env` owns a `HashMap<String, LoxObj>` and a `Weak` reference to its
parent. Cells live in `EnvHeap`; `parent := none` models `Weak::new()` (and
an upgrade that fails). Recursive chain walks take a fuel argument purely
for termination: every child is allocated after its parent, so parent
indices strictly decrease along any chain and `heap.length` bounds the
walk; `Res.timeout` never occurs at that fuel. -/

/-- One `Env` cell: `map` plus the `Weak` parent pointer. -/
structure EnvData : Type where
  map : FMap String LoxObj
  parent : Option EnvRef

abbrev EnvHeap := List EnvData

namespace Env

/-- Env::new (env.rs): no parent. -/
def new : EnvData := ⟨FMap.empty, none⟩

/-- Env::from_parent (env.rs): fresh map, `Weak` to the given parent. -/
def from_parent (p : EnvRef) : EnvData := ⟨FMap.empty, some p⟩

/-- Allocate a cell; returns the heap and the new `Rc`. -/
def alloc (h : EnvHeap) (e : EnvData) : EnvHeap × EnvRef :=
  (h ++ [e], h.length)

/-- Env::get (env.rs lines 34-42): look up here, else recurse into the
parent; `Undefined` when the chain ends. -/
def get (h : EnvHeap) : Nat → EnvRef → String → Res LoxObj
  | 0, _, _ => .timeout
  | fuel + 1, r, name =>
    match h.get? r with
    | none => .panic
    | some e =>
      match e.map name with
      | some obj => .ok obj
      | none =>
        match e.parent with
        | some p => get h fuel p name
        | none => .err (.undefined name)

/-- Env::contains (env.rs): this frame only. -/
def contains (h : EnvHeap) (r : EnvRef) (name : String) : Bool :=
  match h.get? r with
  | some e => (e.map name).isSome
  | none => false

/-- Env::define (env.rs lines 49-57): insert into this frame only;
`DuplicateDeclaration` if the name is already bound here. -/
def define (h : EnvHeap) (r : EnvRef) (name : String) (obj : LoxObj) :
    EnvHeap × Res Unit :=
  match h.get? r with
  | none => (h, .panic)
  | some e =>
    if (e.map name).isSome then (h, .err (.duplicateDeclaration name))
    else (h.set r { e with map := e.map.insert name obj }, .ok ())

/-- Env::assign (env.rs lines 59-70): overwrite here if bound, else walk
outward through the parent chain; `Undefined` if never found. -/
def assign (h : EnvHeap) : Nat → EnvRef → String → LoxObj → EnvHeap × Res Unit
  | 0, _, _, _ => (h, .timeout)
  | fuel + 1, r, name, obj =>
    match h.get? r with
    | none => (h, .panic)
    | some e =>
      if (e.map name).isSome then
        (h.set r { e with map := e.map.insert name obj }, .ok ())
      else
        match e.parent with
        | some p => assign h fuel p name obj
        | none => (h, .err (.undefined name))

/-- Upgrade of the `Weak` parent of `r`. -/
def parentUpgrade (h : EnvHeap) (r : EnvRef) : Option EnvRef :=
  (h.get? r).bind (·.parent)

/-- Env::ancestor (env.rs lines 77-85), translated exactly. The Rust body is

  (0..d).scan(self.parent.upgrade().unwrap(),
              |env, _| Some(env.borrow().parent.upgrade().unwrap()))
        .last().unwrap()

`scan` first evaluates its initial state, `self.parent.upgrade().unwrap()`
(a panic when there is no parent). The closure never writes its state, so
each of the `d` iterator items is the parent OF THE PARENT of `self`; for
`d = 0` the iterator is empty and `.last().unwrap()` panics. Hence: panic
for `d = 0`; otherwise the 2-hop ancestor (panicking if absent), whatever
`d` is. `none` is the panic. -/
def ancestor (h : EnvHeap) (r : EnvRef) (d : Nat) : Option EnvRef :=
  match parentUpgrade h r with
  | none => none
  | some p =>
    match d with
    | 0 => none
    | _ + 1 => parentUpgrade h p

/-- Env::get_resolved (env.rs lines 87-93): look up in the `ancestor d`
frame only, no further search. -/
def get_resolved (h : EnvHeap) (r : EnvRef) (name : String) (d : Nat) :
    Res LoxObj :=
  match ancestor h r d with
  | none => .panic
  | some a =>
    match h.get? a with
    | none => .panic
    | some e =>
      match e.map name with
      | some obj => .ok obj
      | none => .err (.undefined name)

/-- Env::assign_resolved (env.rs lines 95-97): `assign` starting from the
`ancestor d` frame. It is never called by the evaluator below. -/
def assign_resolved (h : EnvHeap) (fuel : Nat) (r : EnvRef) (name : String)
    (obj : LoxObj) (d : Nat) : EnvHeap × Res Unit :=
  match ancestor h r d with
  | none => (h, .panic)
  | some a => assign h fuel a name obj

/-- What the spec says `get_resolved` does (spec 4.2): walk EXACTLY
`distance` parent links from the current frame, then look `name` up in
that frame directly. Stated only to exhibit the divergence of the code. -/
def ancestorSpec (h : EnvHeap) : EnvRef → Nat → Option EnvRef
  | r, 0 => some r
  | r, d + 1 =>
    match parentUpgrade h r with
    | some p => ancestorSpec h p d
    | none => none

/-- Spec-described resolved lookup (walk exactly `d`, then direct lookup);
see `ancestorSpec`. -/
def get_resolvedSpec (h : EnvHeap) (r : EnvRef) (name : String) (d : Nat) :
    Res LoxObj :=
  match ancestorSpec h r d with
  | none => .panic
  | some a =>
    match h.get? a with
    | none => .panic
    | some e =>
      match e.map name with
      | some obj => .ok obj
      | none => .err (.undefined name)

end Env

/-! ### Resolver (src/analizer/resolver.rs) -/

/-- SemantcicError (resolver.rs, name as in the source). -/
inductive SemantcicError : Type
  | undefined (name : String)
  | duplicateDeclaration (name : String)
  | recursiveVariableDeclaration (name : String)
  | returnFromNonFunction
  | useOfSelfOutsideMethod
deriving DecidableEq, Repr

inductive LoxFnType : Type
  | none
  | fn
  | method
deriving DecidableEq, Repr

inductive ClassType : Type
  | classType
  | none
deriving DecidableEq, Repr

/-- One resolver scope: name to initialized flag. -/
abbrev Scope := FMap String Bool

/-- The distance map (`VarUseCache`): variable use to hop count. -/
abbrev Cache := FMap VarUseData Nat

/-- Resolver state (resolver.rs lines 41-53). The scope stack is a list
with the INNERMOST scope at the head (`Vec` push/pop at the end). -/
structure Resolver : Type where
  scopes : List Scope
  currentFnType : LoxFnType
  currentClassType : ClassType
  caches : Cache

namespace Resolver

/-- Resolver::new (resolver.rs lines 57-65), over a given cache. -/
def new (caches : Cache) : Resolver :=
  ⟨[], .none, .none, caches⟩

/-- Resolver::resolve_local_var (resolver.rs lines 68-79): scan the scope
stack innermost-first; record the first match as the distance; record
nothing on no match. -/
def resolveLocalVar (st : Resolver) (v : VarUseData) : Resolver :=
  match st.scopes.findIdx? (fun s => (s v.name).isSome) with
  | some d => { st with caches := st.caches.insert v d }
  | Option.none => st

def beginScope (st : Resolver) : Resolver :=
  { st with scopes := FMap.empty :: st.scopes }

def endScope (st : Resolver) : Resolver :=
  { st with scopes := st.scopes.tail }

/-- Resolver::declare (resolver.rs lines 93-103): no-op at global scope;
`DuplicateDeclaration` if already present in the innermost scope; else
insert name -> false. -/
def declare (st : Resolver) (name : String) :
    Resolver × Option SemantcicError :=
  match st.scopes with
  | [] => (st, Option.none)
  | s :: rest =>
    if (s name).isSome then (st, some (.duplicateDeclaration name))
    else ({ st with scopes := s.insert name false :: rest }, Option.none)

/-- Resolver::define (resolver.rs lines 106-114): flip the innermost entry
to true; no-op at global scope. -/
def define (st : Resolver) (name : String) : Resolver :=
  match st.scopes with
  | [] => st
  | s :: rest => { st with scopes := s.insert name true :: rest }

/-- Resolver::resolve_fn_before (resolver.rs lines 151-157). -/
def resolveFnBefore (st : Resolver) (fnType : LoxFnType) :
    Resolver × LoxFnType :=
  ({ st with currentFnType := fnType, scopes := FMap.empty :: st.scopes },
   st.currentFnType)

/-- Resolver::resolve_fn_after (resolver.rs lines 160-163). -/
def resolveFnAfter (st : Resolver) (enclosing : LoxFnType) : Resolver :=
  { st with scopes := st.scopes.tail, currentFnType := enclosing }

/-- The parameter loop of Resolver::impl_resolve_fn: declare then define
each parameter, failing fast. -/
def declareDefineParams (st : Resolver) :
    List String → Resolver × Option SemantcicError
  | [] => (st, Option.none)
  | p :: tl =>
    match declare st p with
    | (st1, some e) => (st1, some e)
    | (st1, Option.none) => declareDefineParams (define st1 p) tl

end Resolver

/-- Outcome of a resolver call: Ok, a semantic error, or exhausted model
fuel (the fuel argument exists only to make the model total; the Rust
recursion is structural on the AST and a fuel of `sizeOf` of the input
always suffices). -/
inductive RRes : Type
  | ok
  | err (e : SemantcicError)
  | timeout
deriving DecidableEq, Repr

/- Resolver expression visitor (resolver.rs lines 252-318), fail-fast via
the `?` operator; the state is threaded explicitly. -/
mutual

/-- Resolver::resolve_expr / the ExprVisitor impl for Resolver. -/
def resolveExpr : Nat → Resolver → Expr → Resolver × RRes
  | 0, st, _ => (st, .timeout)
  | fuel + 1, st, e =>
    match e with
    | .literal _ => (st, .ok)
    | .unary _ e1 => resolveExpr fuel st e1
    | .grouping e1 => resolveExpr fuel st e1
    | .binary l _ r =>
      match resolveExpr fuel st l with
      | (st1, .ok) => resolveExpr fuel st1 r
      | (st1, r1) => (st1, r1)
    | .logic l _ r =>
      match resolveExpr fuel st l with
      | (st1, .ok) => resolveExpr fuel st1 r
      | (st1, r1) => (st1, r1)
    | .varUse v =>
      match st.scopes.head? with
      | some s =>
        if s v.name = some false then
          (st, .err (.recursiveVariableDeclaration v.name))
        else (st.resolveLocalVar v, .ok)
      | Option.none => (st.resolveLocalVar v, .ok)
    | .assign assigned e1 =>
      match resolveExpr fuel st e1 with
      | (st1, .ok) => (st1.resolveLocalVar assigned, .ok)
      | (st1, r1) => (st1, r1)
    | .call callee args =>
      match resolveExpr fuel st callee with
      | (st1, .ok) =>
        match args with
        | Option.none => (st1, .ok)
        | some l => resolveExprArgs fuel st1 l
      | (st1, r1) => (st1, r1)
    | .get body _ => resolveExpr fuel st body
    | .set body _ value =>
      match resolveExpr fuel st body with
      | (st1, .ok) => resolveExpr fuel st1 value
      | (st1, r1) => (st1, r1)

/-- The argument loop of Resolver::visit_call_expr. -/
def resolveExprArgs : Nat → Resolver → List Expr → Resolver × RRes
  | 0, st, _ => (st, .timeout)
  | _ + 1, st, [] => (st, .ok)
  | fuel + 1, st, a :: tl =>
    match resolveExpr fuel st a with
    | (st1, .ok) => resolveExprArgs fuel st1 tl
    | (st1, r1) => (st1, r1)

end

/- Resolver statement visitor (resolver.rs lines 117-250). -/
mutual

/-- Resolver::resolve_stmt / the StmtVisitor impl for Resolver. -/
def resolveStmt : Nat → Resolver → Stmt → Resolver × RRes
  | 0, st, _ => (st, .timeout)
  | fuel + 1, st, s =>
    match s with
    | .exprStmt e => resolveExpr fuel st e
    | .print p => resolveExpr fuel st p
    | .varDecl name init =>
      match st.declare name with
      | (st1, some e) => (st1, .err e)
      | (st1, Option.none) =>
        match resolveExpr fuel st1 init with
        | (st2, .ok) => (st2.define name, .ok)
        | (st2, r2) => (st2, r2)
    | .fnDecl f =>
      match st.declare f.name with
      | (st1, some e) => (st1, .err e)
      | (st1, Option.none) => resolvePureFn fuel (st1.define f.name) f .fn
    | .ifStmt args => resolveIf fuel st args
    | .retStmt e =>
      if st.currentFnType = LoxFnType.none then
        (st, .err .returnFromNonFunction)
      else resolveExpr fuel st e
    | .whileStmt cond block =>
      match resolveExpr fuel st cond with
      | (st1, .ok) => resolveBlock fuel st1 block
      | (st1, r1) => (st1, r1)
    | .blockStmt stmts => resolveBlock fuel st stmts
    | .classDecl name methods =>
      let enclosing := st.currentClassType
      let st0 : Resolver := { st with currentClassType := .classType }
      match st0.declare name with
      | (st1, some e) => (st1, .err e)
      | (st1, Option.none) =>
        match resolveClassMethods fuel (st1.define name) methods with
        | (st2, .ok) =>
          ({ st2 with currentClassType := enclosing }, .ok)
        | (st2, r2) => (st2, r2)

/-- Resolver::visit_if_stmt (resolver.rs lines 195-208). Note: the then
branch is resolved WITHOUT a scope of its own (`resolve_stmts`), the else
branch WITH one (`resolve_block`). -/
def resolveIf : Nat → Resolver → IfArgs → Resolver × RRes
  | 0, st, _ => (st, .timeout)
  | fuel + 1, st, .mk cond ifTrue ifFalse =>
    match resolveExpr fuel st cond with
    | (st1, .ok) =>
      match resolveStmts fuel st1 ifTrue with
      | (st2, .ok) =>
        match ifFalse with
        | some (.elseIf args) => resolveIf fuel st2 args
        | some (.justElse stmts) => resolveBlock fuel st2 stmts
        | Option.none => (st2, .ok)
      | (st2, r2) => (st2, r2)
    | (st1, r1) => (st1, r1)

/-- Resolver::resolve_block (resolver.rs lines 127-132): a fresh scope
around the statements; the scope is popped even when an error occurred. -/
def resolveBlock : Nat → Resolver → List Stmt → Resolver × RRes
  | 0, st, _ => (st, .timeout)
  | fuel + 1, st, stmts =>
    match resolveStmts fuel st.beginScope stmts with
    | (st1, r) => (st1.endScope, r)

/-- Resolver::resolve_stmts (resolver.rs lines 135-140): statement after
statement, stopping at the first error (the `?` operator). -/
def resolveStmts : Nat → Resolver → List Stmt → Resolver × RRes
  | 0, st, _ => (st, .timeout)
  | _ + 1, st, [] => (st, .ok)
  | fuel + 1, st, s :: tl =>
    match resolveStmt fuel st s with
    | (st1, .ok) => resolveStmts fuel st1 tl
    | (st1, r1) => (st1, r1)

/-- Resolver::resolve_pure_fn (resolver.rs lines 143-148). -/
def resolvePureFn (fuel : Nat) (st : Resolver) (f : FnDeclArgs)
    (fnType : LoxFnType) : Resolver × RRes :=
  match fuel with
  | 0 => (st, .timeout)
  | fuel + 1 =>
    match st.resolveFnBefore fnType with
    | (st1, enclosing) =>
      match implResolveFn fuel st1 f with
      | (st2, r) => (st2.resolveFnAfter enclosing, r)

/-- Resolver::impl_resolve_fn (resolver.rs lines 166-172): declare+define
each parameter, then resolve the body in the same scope. -/
def implResolveFn : Nat → Resolver → FnDeclArgs → Resolver × RRes
  | 0, st, _ => (st, .timeout)
  | fuel + 1, st, .mk _ body params =>
    match st.declareDefineParams (params.getD []) with
    | (st1, some e) => (st1, .err e)
    | (st1, Option.none) => resolveStmts fuel st1 body

/-- The method loop of Resolver::visit_class_decl (resolver.rs lines
237-246): for each method, a fresh Method scope whose innermost map is
seeded with the receiver name `"@"` at true, then the function resolution,
then restore; fail fast after restoring. -/
def resolveClassMethods : Nat → Resolver → List FnDeclArgs → Resolver × RRes
  | 0, st, _ => (st, .timeout)
  | _ + 1, st, [] => (st, .ok)
  | fuel + 1, st, m :: tl =>
    match st.resolveFnBefore .method with
    | (st1, enclosing) =>
      let st2 : Resolver :=
        match st1.scopes with
        | [] => st1
        | s :: rest => { st1 with scopes := s.insert "@" true :: rest }
      match implResolveFn fuel st2 m with
      | (st3, r) =>
        let st4 := st3.resolveFnAfter enclosing
        match r with
        | .ok => resolveClassMethods fuel st4 tl
        | r1 => (st4, r1)

end

/-! ### Runtime object operations (src/runtime/obj.rs) -/

/-- LoxInstance (obj.rs): defining class plus mutable field table. -/
structure LoxInstanceData : Type where
  klass : LoxClass
  fields : FMap String LoxObj

/-- LoxUserFn::from_def (obj.rs lines 143-149). -/
def LoxUserFn.from_def (f : FnDeclArgs) (closure : EnvRef) : LoxUserFn :=
  .mk f.body f.params closure

/-- LoxFn::from_decl (obj.rs lines 119-121). -/
def LoxFn.from_decl (f : FnDeclArgs) (closure : EnvRef) : LoxFn :=
  .user (LoxUserFn.from_def f closure)

/-- LoxObj::f (obj.rs lines 29-31). -/
def LoxObj.f (f : FnDeclArgs) (closure : EnvRef) : LoxObj :=
  .callable (LoxFn.from_decl f closure)

/-- LoxUserFn::bind (obj.rs lines 151-159): a fresh child environment of
the closure, defining only the receiver name `"@"`; the original function
value is untouched. The `define` on the fresh empty map cannot fail. -/
def LoxUserFn.bind (h : EnvHeap) (f : LoxUserFn) (inst : InstRef) :
    EnvHeap × LoxUserFn :=
  let env : EnvData :=
    { Env.from_parent f.closure with
      map := FMap.empty.insert "@" (.instanceObj inst) }
  match Env.alloc h env with
  | (h1, r) => (h1, .mk f.body f.params r)

/-- LoxFn::bind (obj.rs lines 123-128): only user functions bind. -/
def LoxFn.bind (h : EnvHeap) (f : LoxFn) (inst : InstRef) :
    EnvHeap × Res LoxFn :=
  match f with
  | .user uf =>
    match LoxUserFn.bind h uf inst with
    | (h1, uf1) => (h1, .ok (.user uf1))
  | .clock => (h, .err .cantBind)

/-- LoxInstance::get (obj.rs lines 209-219): fields first, then a method
bound to the instance, else `NoFieldWithName`. -/
def LoxInstance.get (h : EnvHeap) (insts : List LoxInstanceData)
    (r : InstRef) (name : String) : EnvHeap × Res LoxObj :=
  match insts.get? r with
  | none => (h, .panic)
  | some d =>
    match d.fields name with
    | some obj => (h, .ok obj)
    | none =>
      match d.klass.find_method name with
      | some m =>
        match LoxFn.bind h m r with
        | (h1, .ok f) => (h1, .ok (.callable f))
        | (h1, .err e) => (h1, .err e)
        | (h1, .panic) => (h1, .panic)
        | (h1, .timeout) => (h1, .timeout)
      | none => (h, .err (.noFieldWithName name))

/-- LoxInstance::set (obj.rs lines 221-223): unconditional overwrite. -/
def LoxInstance.set (insts : List LoxInstanceData) (r : InstRef)
    (name : String) (obj : LoxObj) : List LoxInstanceData × Res Unit :=
  match insts.get? r with
  | none => (insts, .panic)
  | some d =>
    (insts.set r { d with fields := d.fields.insert name obj }, .ok ())

/-! ### Operator helpers (mod logic in src/runtime/interpreter.rs,
lines 253-307) -/

namespace logic

/-- logic::obj_eq: defined only between two values of the same primitive
kind among Number, Bool, String; `None` otherwise (note: `Nil == Nil` is
also `None`). -/
def obj_eq : LoxValue → LoxValue → Option Bool
  | .number n1, .number n2 => some (n1 == n2)
  | .bool b1, .bool b2 => some (b1 == b2)
  | .stringLit s1, .stringLit s2 => some (s1 == s2)
  | _, _ => none

/-- logic::obj_cmp: numbers only (total on the Int model of f64). -/
def obj_cmp : LoxValue → LoxValue → Option Ordering
  | .number n1, .number n2 => some (compare n1 n2)
  | _, _ => none

def obj_plus : LoxValue → LoxValue → Option LoxObj
  | .number n1, .number n2 => some (.value (.number (n1 + n2)))
  | .stringLit s1, .stringLit s2 => some (.value (.stringLit (s1 ++ s2)))
  | _, _ => none

def obj_minus : LoxValue → LoxValue → Option LoxObj
  | .number n1, .number n2 => some (.value (.number (n1 - n2)))
  | _, _ => none

def obj_div : LoxValue → LoxValue → Option LoxObj
  | .number n1, .number n2 => some (.value (.number (n1 / n2)))
  | _, _ => none

def obj_mul : LoxValue → LoxValue → Option LoxObj
  | .number n1, .number n2 => some (.value (.number (n1 * n2)))
  | _, _ => none

end logic

/-! ### Interpreter (src/runtime/interpreter.rs) -/

/-- Interpreter state (interpreter.rs lines 15-24). `clockVal` abstracts
the milliseconds-since-start reading of the `clock` native. -/
structure Interp : Type where
  envHeap : EnvHeap
  instHeap : List LoxInstanceData
  globals : EnvRef
  env : EnvRef
  caches : Cache
  clockVal : LoxNum

/-- Interpreter::lookup_resolved (interpreter.rs lines 28-37): a cached
distance goes through `get_resolved` on the current environment; an
uncached name is assumed global and looked up in `globals` directly. -/
def Interp.lookup_resolved (i : Interp) (v : VarUseData) : Res LoxObj :=
  match i.caches v with
  | some d => Env.get_resolved i.envHeap i.env v.name d
  | none => Env.get i.envHeap (i.envHeap.length + 1) i.globals v.name

/-- Interpreter::validate_arities (interpreter.rs lines 110-119). -/
def validate_arities (n1 n2 : Option Nat) : Option RuntimeError :=
  match n1, n2 with
  | none, none => none
  | some _, none => some .wrongNumberOfArguments
  | none, some _ => some .wrongNumberOfArguments
  | some a, some b =>
    if a ≠ b then some .wrongNumberOfArguments else none

/-- The method-table construction of Interpreter::visit_class_decl
(interpreter.rs lines 214-232): each declared method is closed over the
environment in effect at the class declaration. -/
def classMethodTable (methods : List FnDeclArgs) (closure : EnvRef) :
    List (String × LoxFn) :=
  methods.foldl (fun m f => alistInsert m f.name (LoxFn.from_decl f closure))
    []

/- The tree-walking evaluator: the ExprVisitor and StmtVisitor impls for
Interpreter (interpreter.rs lines 159-233 and 310-446) plus invocation
(lines 83-138). All functions take a fuel argument, decremented on every
mutual call, purely so the model is total; `Res.timeout` marks exhausted
fuel. Environment-chain walks inside use fuel `heap.length + 1`, which
always suffices since parent indices strictly decrease. -/
mutual

/-- Interpreter::eval_expr / visit_expr: expression evaluation. -/
def evalExpr : Nat → Interp → Expr → Interp × Res LoxObj
  | 0, i, _ => (i, .timeout)
  | fuel + 1, i, e =>
    match e with
    | .literal lit => (i, .ok (LoxObj.from_lit lit))
    | .grouping inner => evalExpr fuel i inner
    | .unary oper inner =>
      match evalExpr fuel i inner with
      | (i1, .ok obj) =>
        match oper with
        | .minus =>
          match obj.as_num with
          | some n => (i1, .ok (.value (.number (-n))))
          | none => (i1, .err .mismatchedType)
        | .not => (i1, .ok (LoxObj.bool (!obj.is_truthy)))
      | (i1, .err e1) => (i1, .err e1)
      | (i1, .panic) => (i1, .panic)
      | (i1, .timeout) => (i1, .timeout)
    | .binary left oper right =>
      match evalExpr fuel i left with
      | (i1, .ok lobj) =>
        match evalExpr fuel i1 right with
        | (i2, .ok robj) =>
          match lobj.as_value, robj.as_value with
          | some l, some r =>
            match oper with
            | .equal | .notEqual =>
              match logic.obj_eq l r with
              | some cp => (i2, .ok (LoxObj.bool cp))
              | none => (i2, .err .mismatchedType)
            | .less | .lessEqual | .greater | .greaterEqual =>
              match logic.obj_cmp l r with
              | some ord =>
                (i2, .ok (LoxObj.bool
                  (match oper with
                   | .less => ord = Ordering.lt
                   | .lessEqual => ord ≠ Ordering.gt
                   | .greater => ord = Ordering.gt
                   | _ => ord ≠ Ordering.lt)))
              | none => (i2, .err .mismatchedType)
            | .minus =>
              match logic.obj_minus l r with
              | some o => (i2, .ok o)
              | none => (i2, .err .mismatchedType)
            | .plus =>
              match logic.obj_plus l r with
              | some o => (i2, .ok o)
              | none => (i2, .err .mismatchedType)
            | .div =>
              match logic.obj_div l r with
              | some o => (i2, .ok o)
              | none => (i2, .err .mismatchedType)
            | .mul =>
              match logic.obj_mul l r with
              | some o => (i2, .ok o)
              | none => (i2, .err .mismatchedType)
          | _, _ => (i2, .err .mismatchedType)
        | (i2, .err e2) => (i2, .err e2)
        | (i2, .panic) => (i2, .panic)
        | (i2, .timeout) => (i2, .timeout)
      | (i1, .err e1) => (i1, .err e1)
      | (i1, .panic) => (i1, .panic)
      | (i1, .timeout) => (i1, .timeout)
    | .logic left oper right =>
      match evalExpr fuel i left with
      | (i1, .ok lobj) =>
        match oper with
        | .or =>
          if lobj.is_truthy then (i1, .ok (LoxObj.bool true))
          else
            match evalExpr fuel i1 right with
            | (i2, .ok robj) => (i2, .ok (LoxObj.bool robj.is_truthy))
            | (i2, .err e2) => (i2, .err e2)
            | (i2, .panic) => (i2, .panic)
            | (i2, .timeout) => (i2, .timeout)
        | .and =>
          if lobj.is_truthy then
            match evalExpr fuel i1 right with
            | (i2, .ok robj) => (i2, .ok (LoxObj.bool robj.is_truthy))
            | (i2, .err e2) => (i2, .err e2)
            | (i2, .panic) => (i2, .panic)
            | (i2, .timeout) => (i2, .timeout)
          else (i1, .ok (LoxObj.bool false))
      | (i1, .err e1) => (i1, .err e1)
      | (i1, .panic) => (i1, .panic)
      | (i1, .timeout) => (i1, .timeout)
    | .varUse v => (i, i.lookup_resolved v)
    | .assign assigned inner =>
      match evalExpr fuel i inner with
      | (i1, .ok obj) =>
        match Env.assign i1.envHeap (i1.envHeap.length + 1) i1.env
            assigned.name obj with
        | (h1, .ok _) => ({ i1 with envHeap := h1 }, .ok obj)
        | (h1, .err e1) => ({ i1 with envHeap := h1 }, .err e1)
        | (h1, .panic) => ({ i1 with envHeap := h1 }, .panic)
        | (h1, .timeout) => ({ i1 with envHeap := h1 }, .timeout)
      | (i1, .err e1) => (i1, .err e1)
      | (i1, .panic) => (i1, .panic)
      | (i1, .timeout) => (i1, .timeout)
    | .call callee args =>
      match evalExpr fuel i callee with
      | (i1, .ok (.callable f)) =>
        match invoke fuel i1 f args with
        | (i2, .ok v) => (i2, .ok (v.getD LoxObj.nil))
        | (i2, .err e2) => (i2, .err e2)
        | (i2, .panic) => (i2, .panic)
        | (i2, .timeout) => (i2, .timeout)
      | (i1, .ok (.classObj c)) =>
        ({ i1 with instHeap := i1.instHeap ++ [⟨c, FMap.empty⟩] },
         .ok (.instanceObj i1.instHeap.length))
      | (i1, .ok _) => (i1, .err .mismatchedType)
      | (i1, .err e1) => (i1, .err e1)
      | (i1, .panic) => (i1, .panic)
      | (i1, .timeout) => (i1, .timeout)
    | .get body name =>
      match evalExpr fuel i body with
      | (i1, .ok (.instanceObj r)) =>
        match LoxInstance.get i1.envHeap i1.instHeap r name with
        | (h1, rg) => ({ i1 with envHeap := h1 }, rg)
      | (i1, .ok _) => (i1, .err .notForDotOperator)
      | (i1, .err e1) => (i1, .err e1)
      | (i1, .panic) => (i1, .panic)
      | (i1, .timeout) => (i1, .timeout)
    | .set body name value =>
      match evalExpr fuel i body with
      | (i1, .ok (.instanceObj r)) =>
        match evalExpr fuel i1 value with
        | (i2, .ok obj) =>
          match LoxInstance.set i2.instHeap r name obj with
          | (insts, .ok _) => ({ i2 with instHeap := insts }, .ok LoxObj.nil)
          | (insts, .err e2) => ({ i2 with instHeap := insts }, .err e2)
          | (insts, .panic) => ({ i2 with instHeap := insts }, .panic)
          | (insts, .timeout) => ({ i2 with instHeap := insts }, .timeout)
        | (i2, .err e2) => (i2, .err e2)
        | (i2, .panic) => (i2, .panic)
        | (i2, .timeout) => (i2, .timeout)
      | (i1, .ok _) => (i1, .err .notForDotOperator)
      | (i1, .err e1) => (i1, .err e1)
      | (i1, .panic) => (i1, .panic)
      | (i1, .timeout) => (i1, .timeout)

/-- Interpreter::invoke (interpreter.rs lines 83-91). -/
def invoke : Nat → Interp → LoxFn → Option (List Expr) →
    Interp × Res (Option LoxObj)
  | 0, i, _, _ => (i, .timeout)
  | fuel + 1, i, f, args =>
    match f with
    | .user uf => invoke_user_fn fuel i uf args
    | .clock =>
      match args with
      | none => (i, .ok (some (.value (.number i.clockVal))))
      | some _ => (i, .err .wrongNumberOfArguments)

/-- Interpreter::invoke_user_fn (interpreter.rs lines 93-107): arity
check, then a fresh scope whose parent is the CALLER environment
(`Env::from_parent(&self.env)` in both branches of the `match` on
`def.params`); the function closure `def.closure` is not consulted. -/
def invoke_user_fn : Nat → Interp → LoxUserFn → Option (List Expr) →
    Interp × Res (Option LoxObj)
  | 0, i, _, _ => (i, .timeout)
  | fuel + 1, i, uf, args =>
    match validate_arities (uf.params.map List.length)
        (args.map List.length) with
    | some e => (i, .err e)
    | none =>
      match uf.params with
      | some ps =>
        match args with
        | some argList =>
          match Env.alloc i.envHeap (Env.from_parent i.env) with
          | (h, scopeRef) =>
            match bindParams fuel { i with envHeap := h } scopeRef ps
                argList with
            | (i2, .ok _) =>
              interpret_stmts_with_scope fuel i2 uf.body scopeRef
            | (i2, .err e2) => (i2, .err e2)
            | (i2, .panic) => (i2, .panic)
            | (i2, .timeout) => (i2, .timeout)
        | none => (i, .panic)
      | none =>
        match Env.alloc i.envHeap (Env.from_parent i.env) with
        | (h, scopeRef) =>
          interpret_stmts_with_scope fuel { i with envHeap := h } uf.body
            scopeRef

/-- The parameter-binding loop of Interpreter::scope_from_args
(interpreter.rs lines 121-127): each argument is evaluated in the caller
environment, then defined into the new scope. -/
def bindParams : Nat → Interp → EnvRef → List String → List Expr →
    Interp × Res Unit
  | 0, i, _, _, _ => (i, .timeout)
  | _ + 1, i, _, [], _ => (i, .ok ())
  | _ + 1, i, _, _ :: _, [] => (i, .panic)
  | fuel + 1, i, scopeRef, p :: ptl, a :: atl =>
    match evalExpr fuel i a with
    | (i1, .ok obj) =>
      match Env.define i1.envHeap scopeRef p obj with
      | (h, .ok _) =>
        bindParams fuel { i1 with envHeap := h } scopeRef ptl atl
      | (h, .err e) => ({ i1 with envHeap := h }, .err e)
      | (h, .panic) => ({ i1 with envHeap := h }, .panic)
      | (h, .timeout) => ({ i1 with envHeap := h }, .timeout)
    | (i1, .err e) => (i1, .err e)
    | (i1, .panic) => (i1, .panic)
    | (i1, .timeout) => (i1, .timeout)

/-- Interpreter::interpret_stmts (interpreter.rs lines 64-71): statement
after statement; a fired `return` (`Some`) stops the walk and is passed
up unchanged. -/
def interpret_stmts : Nat → Interp → List Stmt →
    Interp × Res (Option LoxObj)
  | 0, i, _ => (i, .timeout)
  | _ + 1, i, [] => (i, .ok none)
  | fuel + 1, i, s :: tl =>
    match visitStmt fuel i s with
    | (i1, .ok (some obj)) => (i1, .ok (some obj))
    | (i1, .ok none) => interpret_stmts fuel i1 tl
    | (i1, .err e) => (i1, .err e)
    | (i1, .panic) => (i1, .panic)
    | (i1, .timeout) => (i1, .timeout)

/-- Interpreter::interpret_stmts_with_scope (interpreter.rs lines 74-80):
swap in the scope, run, swap back (also on error). -/
def interpret_stmts_with_scope : Nat → Interp → List Stmt → EnvRef →
    Interp × Res (Option LoxObj)
  | 0, i, _, _ => (i, .timeout)
  | fuel + 1, i, stmts, scopeRef =>
    match interpret_stmts fuel { i with env := scopeRef } stmts with
    | (i1, r) => ({ i1 with env := i.env }, r)

/-- Interpreter::interpret / visit_stmt: statement execution
(interpreter.rs lines 159-233). -/
def visitStmt : Nat → Interp → Stmt → Interp × Res (Option LoxObj)
  | 0, i, _ => (i, .timeout)
  | fuel + 1, i, s =>
    match s with
    | .exprStmt e =>
      match evalExpr fuel i e with
      | (i1, .ok _) => (i1, .ok none)
      | (i1, .err e1) => (i1, .err e1)
      | (i1, .panic) => (i1, .panic)
      | (i1, .timeout) => (i1, .timeout)
    | .print e =>
      match evalExpr fuel i e with
      | (i1, .ok _) => (i1, .ok none)
      | (i1, .err e1) => (i1, .err e1)
      | (i1, .panic) => (i1, .panic)
      | (i1, .timeout) => (i1, .timeout)
    | .varDecl name init =>
      match evalExpr fuel i init with
      | (i1, .ok obj) =>
        match Env.define i1.envHeap i1.env name obj with
        | (h, .ok _) => ({ i1 with envHeap := h }, .ok none)
        | (h, .err e1) => ({ i1 with envHeap := h }, .err e1)
        | (h, .panic) => ({ i1 with envHeap := h }, .panic)
        | (h, .timeout) => ({ i1 with envHeap := h }, .timeout)
      | (i1, .err e1) => (i1, .err e1)
      | (i1, .panic) => (i1, .panic)
      | (i1, .timeout) => (i1, .timeout)
    | .fnDecl f =>
      match Env.define i.envHeap i.env f.name (LoxObj.f f i.env) with
      | (h, .ok _) => ({ i with envHeap := h }, .ok none)
      | (h, .err e1) => ({ i with envHeap := h }, .err e1)
      | (h, .panic) => ({ i with envHeap := h }, .panic)
      | (h, .timeout) => ({ i with envHeap := h }, .timeout)
    | .classDecl name methods =>
      let c : LoxClass := .mk name (classMethodTable methods i.env)
      match Env.define i.envHeap i.env name (.classObj c) with
      | (h, .ok _) => ({ i with envHeap := h }, .ok none)
      | (h, .err e1) => ({ i with envHeap := h }, .err e1)
      | (h, .panic) => ({ i with envHeap := h }, .panic)
      | (h, .timeout) => ({ i with envHeap := h }, .timeout)
    | .retStmt e =>
      match evalExpr fuel i e with
      | (i1, .ok obj) => (i1, .ok (some obj))
      | (i1, .err e1) => (i1, .err e1)
      | (i1, .panic) => (i1, .panic)
      | (i1, .timeout) => (i1, .timeout)
    | .blockStmt stmts =>
      match Env.alloc i.envHeap (Env.from_parent i.env) with
      | (h, scopeRef) =>
        interpret_stmts_with_scope fuel { i with envHeap := h } stmts
          scopeRef
    | .ifStmt args => visitIf fuel i args
    | .whileStmt cond block => runWhile fuel i cond block

/-- Interpreter::visit_if_stmt (interpreter.rs lines 179-187): the taken
branch is a block of statements and runs in a scope of its own (the
`Stmt::Block` dispatch); its result, a fired `return` included, is the
statement result. -/
def visitIf : Nat → Interp → IfArgs → Interp × Res (Option LoxObj)
  | 0, i, _ => (i, .timeout)
  | fuel + 1, i, .mk cond ifTrue ifFalse =>
    match evalExpr fuel i cond with
    | (i1, .ok obj) =>
      if obj.is_truthy then
        match Env.alloc i1.envHeap (Env.from_parent i1.env) with
        | (h, scopeRef) =>
          interpret_stmts_with_scope fuel { i1 with envHeap := h } ifTrue
            scopeRef
      else
        match ifFalse with
        | some (.elseIf args) => visitIf fuel i1 args
        | some (.justElse stmts) =>
          match Env.alloc i1.envHeap (Env.from_parent i1.env) with
          | (h, scopeRef) =>
            interpret_stmts_with_scope fuel { i1 with envHeap := h } stmts
              scopeRef
        | none => (i1, .ok none)
    | (i1, .err e1) => (i1, .err e1)
    | (i1, .panic) => (i1, .panic)
    | (i1, .timeout) => (i1, .timeout)

/-- Interpreter::visit_while_stmt (interpreter.rs lines 199-205). The body
runs under `interpret_stmts_with_scope(..)?`: the `?` operator propagates
only `Err`, so an `Ok(Some(v))` from a fired `return` in the body is
DISCARDED and the loop continues with the next condition check. -/
def runWhile : Nat → Interp → Expr → List Stmt → Interp × Res (Option LoxObj)
  | 0, i, _, _ => (i, .timeout)
  | fuel + 1, i, cond, block =>
    match evalExpr fuel i cond with
    | (i1, .ok obj) =>
      if obj.is_truthy then
        match Env.alloc i1.envHeap (Env.from_parent i1.env) with
        | (h, scopeRef) =>
          match interpret_stmts_with_scope fuel { i1 with envHeap := h }
              block scopeRef with
          | (i2, .ok _) => runWhile fuel i2 cond block
          | (i2, .err e2) => (i2, .err e2)
          | (i2, .panic) => (i2, .panic)
          | (i2, .timeout) => (i2, .timeout)
      else (i1, .ok none)
    | (i1, .err e1) => (i1, .err e1)
    | (i1, .panic) => (i1, .panic)
    | (i1, .timeout) => (i1, .timeout)

end

/-! ### Driver (src/lib.rs) -/

/-- Interpreter::new + Interpreter::global_env (interpreter.rs lines
40-56): one global environment holding the `clock` native; `env` starts
at `globals`. `clockVal` abstracts the start time. -/
def Interp.new (caches : Cache) (clockVal : LoxNum) : Interp :=
  { envHeap := [{ Env.new with
      map := FMap.empty.insert "clock" (.callable .clock) }]
    instHeap := []
    globals := 0
    env := 0
    caches := caches
    clockVal := clockVal }

/-- Outcome of lib.rs `run_file` on an already-parsed statement list;
`outOfFuel` is the model-only outcome of exhausted fuel. -/
inductive RunResult : Type
  | resolutionError (e : SemantcicError)
  | executed (i : Interp) (r : Res Unit)
  | outOfFuel

/-- The top-level loop of lib.rs `interpret`: one `interpreter.interpret`
call per statement, stopping at the first runtime error; a top-level
`Some` result is ignored and the loop continues. -/
def interpretLoop : Nat → Interp → List Stmt → Interp × Res Unit
  | 0, i, _ => (i, .timeout)
  | _ + 1, i, [] => (i, .ok ())
  | fuel + 1, i, s :: tl =>
    match visitStmt fuel i s with
    | (i1, .ok _) => interpretLoop fuel i1 tl
    | (i1, .err e) => (i1, .err e)
    | (i1, .panic) => (i1, .panic)
    | (i1, .timeout) => (i1, .timeout)

/-- lib.rs `run_file` after parsing: resolve with a fresh `Resolver` over
the interpreter cache; a resolution error blocks execution entirely. -/
def runFile (fuel : Nat) (stmts : List Stmt) : RunResult :=
  match resolveStmts fuel (Resolver.new FMap.empty) stmts with
  | (_, .err e) => .resolutionError e
  | (_, .timeout) => .outOfFuel
  | (st, .ok) =>
    match interpretLoop fuel (Interp.new st.caches 0) stmts with
    | (i, r) => .executed i r

/-- Observation: the resolution error a run was blocked by, if any. -/
def runFileBlocked (fuel : Nat) (stmts : List Stmt) :
    Option SemantcicError :=
  match runFile fuel stmts with
  | .resolutionError e => some e
  | _ => none

/-- Observation: the runtime outcome of an unblocked run. -/
def runFileOutcome (fuel : Nat) (stmts : List Stmt) : Option (Res Unit) :=
  match runFile fuel stmts with
  | .executed _ r => some r
  | _ => none

/-- Observation: a global variable after an unblocked run. -/
def runFileGlobal (fuel : Nat) (stmts : List Stmt) (name : String) :
    Option (Res LoxObj) :=
  match runFile fuel stmts with
  | .executed i _ =>
    some (Env.get i.envHeap (i.envHeap.length + 1) i.globals name)
  | _ => none

/-! ### Chains in the environment heap -/

/-- The list of frames reachable from `r` by following parent links, from
`r` itself out to the root. -/
inductive EnvChain (h : EnvHeap) : EnvRef → List EnvRef → Prop
  | root (r : EnvRef) (e : EnvData) :
      h.get? r = some e → e.parent = none → EnvChain h r [r]
  | step (r : EnvRef) (e : EnvData) (p : EnvRef) (rs : List EnvRef) :
      h.get? r = some e → e.parent = some p → EnvChain h p rs →
      EnvChain h r (r :: rs)

/-- Overwrite `name` in the frame `t` of the heap (what a successful
`Env::assign` does to the frame that stops the walk). -/
def envSetAt (h : EnvHeap) (t : EnvRef) (name : String) (obj : LoxObj) :
    EnvHeap :=
  match h.get? t with
  | some e => h.set t { e with map := e.map.insert name obj }
  | none => h

/-! ### Concrete inputs used by the claims -/

/-- A three-frame chain (refs 0 -> 1 -> 2, frame 2 is the root), binding
`x` to 1, 2, 3 respectively. -/
def c1Heap : EnvHeap := [
  ⟨FMap.empty.insert "x" (.value (.number 1)), some 1⟩,
  ⟨FMap.empty.insert "x" (.value (.number 2)), some 2⟩,
  ⟨FMap.empty.insert "x" (.value (.number 3)), none⟩]

/- The counter-factory of the spec (section 8), as parsed:
  fun counter() { var i = 0;
                  fun inc() { i = i + 1; return i; }
                  return inc; }
  var c = counter(); -/
def c2Prog : List Stmt := [
  .fnDecl (.mk "counter" [
     .varDecl "i" (.literal (.number 0)),
     .fnDecl (.mk "inc" [
        .exprStmt (.assign ⟨"i", 1⟩
          (.binary (.varUse ⟨"i", 2⟩) .plus (.literal (.number 1)))),
        .retStmt (.varUse ⟨"i", 3⟩)] none),
     .retStmt (.varUse ⟨"inc", 4⟩)] none),
  .varDecl "c" (.call (.varUse ⟨"counter", 5⟩) none)]

/-- A caller whose current environment is the global frame 0, invoking a
parameterless function whose recorded closure is frame 1. -/
def c2CallerInterp : Interp :=
  { envHeap := [⟨FMap.empty, none⟩, ⟨FMap.empty, some 0⟩],
    instHeap := [], globals := 0, env := 0, caches := FMap.empty,
    clockVal := 0 }

def c2ClosureFn : LoxUserFn := .mk [] none 1

/- A return fired inside a while loop:
  var b = true;
  fun f() { while (b) { b = false; return 99; } return 0; }
  var r = f(); -/
def c3Prog : List Stmt := [
  .varDecl "b" (.literal (.bool true)),
  .fnDecl (.mk "f" [
    .whileStmt (.varUse ⟨"b", 1⟩) [
      .exprStmt (.assign ⟨"b", 2⟩ (.literal (.bool false))),
      .retStmt (.literal (.number 99))],
    .retStmt (.literal (.number 0))] none),
  .varDecl "r" (.call (.varUse ⟨"f", 3⟩) none)]

/- The same program with the return in a plain block instead of a while
loop, for contrast: block and if DO forward the fired return. -/
def c3BlockProg : List Stmt := [
  .fnDecl (.mk "f" [
    .blockStmt [.retStmt (.literal (.number 99))],
    .retStmt (.literal (.number 0))] none),
  .varDecl "r" (.call (.varUse ⟨"f", 1⟩) none)]

/-- A fresh interpreter with an empty distance map. -/
def iBase : Interp := Interp.new FMap.empty 0

/-- The methods of the spec class C (section 8):
  class C { init(v) { self.v = v; } get() { return self.v; } } -/
def c5Methods : List FnDeclArgs := [
  .mk "init" [.exprStmt (.set (.varUse ⟨"@", 1⟩) "v" (.varUse ⟨"v", 2⟩))]
    (some ["v"]),
  .mk "get" [.retStmt (.get (.varUse ⟨"@", 3⟩) "v")] none]

/- The spec class example as a program: the class declaration followed by
  var r = C(5).get(); -/
def c5Prog : List Stmt := [
  .classDecl "C" c5Methods,
  .varDecl "r" (.call
    (.get (.call (.varUse ⟨"C", 4⟩) (some [.literal (.number 5)])) "get")
    none)]

/-- The interpreter state after the class declaration of `c5Prog` ran in
the global environment: `C` is bound to the class object whose method
table is `classMethodTable c5Methods 0`, exactly what
`visit_class_decl` defines. -/
def c5AfterDecl : Interp :=
  { envHeap := [⟨(FMap.empty.insert "clock" (.callable .clock)).insert "C"
      (.classObj (.mk "C" (classMethodTable c5Methods 0))), none⟩],
    instHeap := [], globals := 0, env := 0, caches := FMap.empty,
    clockVal := 0 }

/-- Whether two runtime values are of the same primitive kind among
Number, Bool and String (the kinds `logic::obj_eq` compares). -/
def samePrimitiveKind : LoxValue → LoxValue → Bool
  | .number _, .number _ => true
  | .bool _, .bool _ => true
  | .stringLit _, .stringLit _ => true
  | _, _ => false

/-- Lifted to runtime objects: only two primitive `Value`s can agree in
kind; a function, class or instance operand never does. -/
def samePrimitiveKindObj : LoxObj → LoxObj → Bool
  | .value v1, .value v2 => samePrimitiveKind v1 v2
  | _, _ => false

/-- A global environment binding `x` and `y` to two arbitrary runtime
objects, so that `visit_binary_expr` can be fed operands of EVERY kind
(literal expressions can never produce functions, classes or
instances). -/
def binOperandState (o1 o2 : LoxObj) : Interp :=
  { envHeap := [⟨(FMap.empty.insert "x" o1).insert "y" o2, none⟩],
    instHeap := [], globals := 0, env := 0, caches := FMap.empty,
    clockVal := 0 }

/-- The result of evaluating `x <op> y` on those two operands. -/
def evalBinOn (op : BinaryOper) (o1 o2 : LoxObj) : Res LoxObj :=
  (evalExpr 3 (binOperandState o1 o2)
    (.binary (.varUse ⟨"x", 0⟩) op (.varUse ⟨"y", 1⟩))).2

/- Two statements carrying two different semantic errors: a duplicate
declaration inside a block, then a top-level return. -/
def c7S1 : Stmt := .blockStmt [
  .varDecl "a" (.literal (.number 1)),
  .varDecl "a" (.literal (.number 2))]

def c7S2 : Stmt := .retStmt (.literal .nil)

/-- The program `var a = a;` at top level (the spec example). -/
def c8GlobalProg : List Stmt := [.varDecl "a" (.varUse ⟨"a", 0⟩)]

/-- The program `{ var a = a; }` (the declaration in a local scope). -/
def c8LocalProg : List Stmt := [.blockStmt [.varDecl "a" (.varUse ⟨"a", 0⟩)]]

/-- A three-frame chain for assignment: the current frame 0 is empty, its
parent 1 binds `x` to 1, the root 2 binds `x` to 9; the distance map sends
the assigned variable use to distance 2 (the root). -/
def c10Heap : EnvHeap := [
  ⟨FMap.empty, some 1⟩,
  ⟨FMap.empty.insert "x" (.value (.number 1)), some 2⟩,
  ⟨FMap.empty.insert "x" (.value (.number 9)), none⟩]

def c10I : Interp :=
  { envHeap := c10Heap, instHeap := [], globals := 2, env := 0,
    caches := FMap.empty.insert ⟨"x", 7⟩ 2, clockVal := 0 }

def c10Result : Interp × Res LoxObj :=
  evalExpr 9 c10I (.assign ⟨"x", 7⟩ (.literal (.number 5)))

/-! ### Cache traces (for the resolver idempotence claim)

The resolver never reads `caches`; it only inserts into it. Every resolver
action therefore sends `⟨sc, ft, ct, c⟩` to a state whose scopes, flags and
result do not depend on `c`, and whose cache is a fixed set of new entries
laid over `c`. -/

/-- Pointwise overlay of new entries over an existing cache. -/
def overlay (pv : VarUseData → Option Nat) (c : Cache) : Cache :=
  fun v => (pv v).orElse (fun _ => c v)

/-- A resolver action with a cache-independent trace (see section header). -/
def HasTrace (t : Resolver → Resolver × RRes) : Prop :=
  ∀ sc ft ct, ∃ sc2 ft2 ct2 pv r, ∀ c : Cache,
    t ⟨sc, ft, ct, c⟩ = (⟨sc2, ft2, ct2, overlay pv c⟩, r)

/-! ### Claim theorems -/

set_option maxHeartbeats 2000000

/-- C1. The claim says `get_resolved(name, d)` walks exactly `d` parent
links and then looks `name` up in that frame. The code does not: the
`scan` in `Env::ancestor` never advances its state, so `get_resolved` at
distance 0 panics (`.last()` of an empty iterator), and at any distance
d >= 1 it reads the 2-hop ancestor. On the chain `c1Heap` (x bound to 1,
2, 3 in frames 0, 1, 2), distance 1 yields 3 instead of 2, distance 2
also yields 3, and distance 0 panics instead of yielding 1; the walk the
spec describes (`get_resolvedSpec`) yields 1 and 2. -/
theorem c1_get_resolved_wrong_frame :
    Env.get_resolved c1Heap 0 "x" 0 = .panic ∧
    Env.get_resolved c1Heap 0 "x" 1 = .ok (.value (.number 3)) ∧
    Env.get_resolved c1Heap 0 "x" 2 = .ok (.value (.number 3)) ∧
    Env.get_resolvedSpec c1Heap 0 "x" 0 = .ok (.value (.number 1)) ∧
    Env.get_resolvedSpec c1Heap 0 "x" 1 = .ok (.value (.number 2)) :=
  ⟨rfl, rfl, rfl, rfl, rfl⟩

/-- C2. The claim says a closure returned from a factory still reads and
updates the factory call's local. Running the spec's counter-factory
panics already at `return inc;`: the use of `inc` is resolved at distance
0 and `Env::ancestor` panics at distance 0. Moreover
`Interpreter::invoke_user_fn` parents the call frame on the CALLER
environment and never consults `LoxUserFn.closure`: invoking
`c2ClosureFn` (whose recorded closure is frame 1) from a caller whose
environment is frame 0 allocates the new scope with parent 0. -/
theorem c2_closure_not_used :
    runFileOutcome 16 c2Prog = some .panic ∧
    c2ClosureFn.closure = 1 ∧
    ((invoke_user_fn 3 c2CallerInterp c2ClosureFn none).1.envHeap.get?
        2).map EnvData.parent = some (some 0) := by
  refine ⟨?_, rfl, rfl⟩
  simp only [c2Prog, runFileOutcome, runFileBlocked,
    runFileGlobal, runFile, resolveStmts, resolveStmt, resolveExpr,
    resolveExprArgs, resolvePureFn, implResolveFn, resolveIf, resolveBlock,
    resolveClassMethods, Resolver.new, Resolver.declare, Resolver.define,
    Resolver.declareDefineParams, Resolver.resolveLocalVar,
    Resolver.beginScope, Resolver.endScope, Resolver.resolveFnBefore,
    Resolver.resolveFnAfter, FnDeclArgs.name, FnDeclArgs.body,
    FnDeclArgs.params, FMap.empty, FMap.insert, FMap.contains,
    interpretLoop, visitStmt, evalExpr, invoke, invoke_user_fn, bindParams,
    interpret_stmts, interpret_stmts_with_scope, visitIf, runWhile,
    Interp.new, Interp.lookup_resolved, validate_arities, classMethodTable,
    Env.new, Env.from_parent, Env.alloc, Env.get, Env.contains, Env.define,
    Env.assign, Env.parentUpgrade, Env.ancestor, Env.get_resolved,
    LoxObj.from_lit, LoxValue.from_lit, LoxObj.is_truthy, LoxObj.bool,
    LoxObj.nil, LoxObj.f, LoxFn.from_decl, LoxUserFn.from_def,
    LoxUserFn.body, LoxUserFn.params, LoxUserFn.closure, LoxFn.bind,
    LoxUserFn.bind, LoxInstance.get, LoxInstance.set, LoxClass.find_method,
    LoxClass.methods, LoxClass.name, alistInsert, List.find?,
    logic.obj_eq, logic.obj_cmp, logic.obj_plus, logic.obj_minus,
    logic.obj_div, logic.obj_mul, LoxObj.as_value, LoxObj.as_num,
    List.findIdx?_nil, List.findIdx?_cons, List.get?, List.set,
    List.head?, List.tail, Option.getD, Option.map, List.length,
    List.foldl, Option.isSome, List.append, HAppend.hAppend,
    Option.orElse, String.reduceEq, reduceCtorEq, reduceIte,
    Nat.reduceAdd, Option.some.injEq, VarUseData.mk.injEq,
    Bool.true_eq_false, Bool.false_eq_true, Nat.reduceEqDiff, false_and,
    and_false, true_and, and_true, and_self, if_true, if_false, ite_true,
    ite_false, eq_self_iff_true, Option.some_bind, Option.none_bind,
    Option.bind_none, List.get?_cons_zero, List.get?_cons_succ,
    List.get?_nil, decide_False, decide_True, Append.append,
    List.cons_append, List.nil_append]

/-- C3. The claim says while propagates a fired return unchanged and stops
early. In `visit_while_stmt` the body result passes through `?`, which
propagates only `Err`: an `Ok(Some v)` is discarded and the loop
continues. In `c3Prog` the function body fires `return 99;` inside the
loop, yet the call evaluates to 0 (the return after the loop); the same
return inside a plain block (`c3BlockProg`) is forwarded and the call
evaluates to 99. -/
theorem c3_while_discards_return :
    runFileOutcome 16 c3Prog = some (.ok ()) ∧
    runFileGlobal 16 c3Prog "r" = some (.ok (.value (.number 0))) ∧
    runFileGlobal 16 c3BlockProg "r" = some (.ok (.value (.number 99))) := by
  refine ⟨?_, ?_, ?_⟩ <;>
  simp only [c3Prog, c3BlockProg, runFileOutcome, runFileBlocked,
    runFileGlobal, runFile, resolveStmts, resolveStmt, resolveExpr,
    resolveExprArgs, resolvePureFn, implResolveFn, resolveIf, resolveBlock,
    resolveClassMethods, Resolver.new, Resolver.declare, Resolver.define,
    Resolver.declareDefineParams, Resolver.resolveLocalVar,
    Resolver.beginScope, Resolver.endScope, Resolver.resolveFnBefore,
    Resolver.resolveFnAfter, FnDeclArgs.name, FnDeclArgs.body,
    FnDeclArgs.params, FMap.empty, FMap.insert, FMap.contains,
    interpretLoop, visitStmt, evalExpr, invoke, invoke_user_fn, bindParams,
    interpret_stmts, interpret_stmts_with_scope, visitIf, runWhile,
    Interp.new, Interp.lookup_resolved, validate_arities, classMethodTable,
    Env.new, Env.from_parent, Env.alloc, Env.get, Env.contains, Env.define,
    Env.assign, Env.parentUpgrade, Env.ancestor, Env.get_resolved,
    LoxObj.from_lit, LoxValue.from_lit, LoxObj.is_truthy, LoxObj.bool,
    LoxObj.nil, LoxObj.f, LoxFn.from_decl, LoxUserFn.from_def,
    LoxUserFn.body, LoxUserFn.params, LoxUserFn.closure, LoxFn.bind,
    LoxUserFn.bind, LoxInstance.get, LoxInstance.set, LoxClass.find_method,
    LoxClass.methods, LoxClass.name, alistInsert, List.find?,
    logic.obj_eq, logic.obj_cmp, logic.obj_plus, logic.obj_minus,
    logic.obj_div, logic.obj_mul, LoxObj.as_value, LoxObj.as_num,
    List.findIdx?_nil, List.findIdx?_cons, List.get?, List.set,
    List.head?, List.tail, Option.getD, Option.map, List.length,
    List.foldl, Option.isSome, List.append, HAppend.hAppend,
    Option.orElse, String.reduceEq, reduceCtorEq, reduceIte,
    Nat.reduceAdd, Option.some.injEq, VarUseData.mk.injEq,
    Bool.true_eq_false, Bool.false_eq_true, Nat.reduceEqDiff, false_and,
    and_false, true_and, and_true, and_self, if_true, if_false, ite_true,
    ite_false, eq_self_iff_true, Option.some_bind, Option.none_bind,
    Option.bind_none, List.get?_cons_zero, List.get?_cons_succ,
    List.get?_nil, decide_False, decide_True, Append.append,
    List.cons_append, List.nil_append]

/-- C4. The claim says Nil and false are falsy and everything else,
including 0 and the empty string, is truthy. `LoxObj::is_truthy` says the
near opposite: Nil IS truthy, while 0, the empty string, and every
function/class/instance are falsy; only Nil and true are truthy. This
drives conditions and logic operators: `nil or false` evaluates to true
because the nil left operand is treated as truthy and short-circuits the
or. -/
theorem c4_truthiness_inverted :
    LoxObj.is_truthy (.value .nil) = true ∧
    LoxObj.is_truthy (.value (.bool false)) = false ∧
    LoxObj.is_truthy (.value (.bool true)) = true ∧
    LoxObj.is_truthy (.value (.number 0)) = false ∧
    LoxObj.is_truthy (.value (.stringLit "")) = false ∧
    LoxObj.is_truthy (.callable .clock) = false ∧
    (evalExpr 9 iBase
      (.logic (.literal .nil) .or (.literal (.bool false)))).2 =
      .ok (LoxObj.bool true) :=
  ⟨rfl, rfl, rfl, rfl, rfl, rfl, rfl⟩

/-- C5. The claim says calling a class invokes a defined `init` on the
new instance and `C(5).get()` evaluates to 5. The Class branch of
`visit_call_expr` only allocates an empty instance: `init` is never
looked up or invoked and the arguments are not even evaluated. A bare
`C(5)` yields an instance whose field `v` is absent, and the spec's full
example panics (the receiver read `self.v` in `get` is resolved at
distance 0, where `Env::ancestor` panics) instead of evaluating to 5. -/
theorem c5_constructor_skips_init :
    runFileOutcome 16 c5Prog = some .panic ∧
    (evalExpr 10 c5AfterDecl
      (.call (.varUse ⟨"C", 4⟩) (some [.literal (.number 5)]))).2 =
      .ok (.instanceObj 0) ∧
    ((evalExpr 10 c5AfterDecl
      (.call (.varUse ⟨"C", 4⟩) (some [.literal (.number 5)]))).1.instHeap.get?
        0).map (fun d => d.fields "v") = some none := by
  refine ⟨?_, ?_, ?_⟩ <;>
  simp only [c5Prog, c5Methods, c5AfterDecl, runFileOutcome, runFileBlocked,
    runFileGlobal, runFile, resolveStmts, resolveStmt, resolveExpr,
    resolveExprArgs, resolvePureFn, implResolveFn, resolveIf, resolveBlock,
    resolveClassMethods, Resolver.new, Resolver.declare, Resolver.define,
    Resolver.declareDefineParams, Resolver.resolveLocalVar,
    Resolver.beginScope, Resolver.endScope, Resolver.resolveFnBefore,
    Resolver.resolveFnAfter, FnDeclArgs.name, FnDeclArgs.body,
    FnDeclArgs.params, FMap.empty, FMap.insert, FMap.contains,
    interpretLoop, visitStmt, evalExpr, invoke, invoke_user_fn, bindParams,
    interpret_stmts, interpret_stmts_with_scope, visitIf, runWhile,
    Interp.new, Interp.lookup_resolved, validate_arities, classMethodTable,
    Env.new, Env.from_parent, Env.alloc, Env.get, Env.contains, Env.define,
    Env.assign, Env.parentUpgrade, Env.ancestor, Env.get_resolved,
    LoxObj.from_lit, LoxValue.from_lit, LoxObj.is_truthy, LoxObj.bool,
    LoxObj.nil, LoxObj.f, LoxFn.from_decl, LoxUserFn.from_def,
    LoxUserFn.body, LoxUserFn.params, LoxUserFn.closure, LoxFn.bind,
    LoxUserFn.bind, LoxInstance.get, LoxInstance.set, LoxClass.find_method,
    LoxClass.methods, LoxClass.name, alistInsert, List.find?,
    logic.obj_eq, logic.obj_cmp, logic.obj_plus, logic.obj_minus,
    logic.obj_div, logic.obj_mul, LoxObj.as_value, LoxObj.as_num,
    List.findIdx?_nil, List.findIdx?_cons, List.get?, List.set,
    List.head?, List.tail, Option.getD, Option.map, List.length,
    List.foldl, Option.isSome, List.append, HAppend.hAppend,
    Option.orElse, String.reduceEq, reduceCtorEq, reduceIte,
    Nat.reduceAdd, Option.some.injEq, VarUseData.mk.injEq,
    Bool.true_eq_false, Bool.false_eq_true, Nat.reduceEqDiff, false_and,
    and_false, true_and, and_true, and_self, if_true, if_false, ite_true,
    ite_false, eq_self_iff_true, Option.some_bind, Option.none_bind,
    Option.bind_none, List.get?_cons_zero, List.get?_cons_succ,
    List.get?_nil, decide_False, decide_True, Append.append,
    List.cons_append, List.nil_append]

/-- C6 counterexample. The claim says equality never yields a type error
and different kinds compare as unequal. `logic::obj_eq` returns `None`
for any pair outside Number/Number, Bool/Bool, String/String, and
`visit_binary_expr` turns that `None` into `MismatchedType`: `0 == nil`,
`nil == nil` and `0 != nil` all error instead of yielding a boolean. -/
theorem c6_equality_raises_type_error :
    (evalExpr 9 iBase
      (.binary (.literal (.number 0)) .equal (.literal .nil))).2 =
      .err .mismatchedType ∧
    (evalExpr 9 iBase
      (.binary (.literal .nil) .equal (.literal .nil))).2 =
      .err .mismatchedType ∧
    (evalExpr 9 iBase
      (.binary (.literal (.number 0)) .notEqual (.literal .nil))).2 =
      .err .mismatchedType :=
  ⟨rfl, rfl, rfl⟩

/-- C7 counterexample. The claim says resolution collects every semantic
error. `resolve_stmts` stops at the first error (`?`), and its result
type carries a single error: resolving `[c7S1, c7S2]`, which contains
both a duplicate declaration and a top-level return, reports only the
duplicate declaration, although resolving `[c7S2]` alone shows the
second, different error is present. -/
theorem c7_not_collected_counterexample :
    (resolveStmts 50 (Resolver.new FMap.empty) [c7S1, c7S2]).2 =
      .err (.duplicateDeclaration "a") ∧
    (resolveStmts 50 (Resolver.new FMap.empty) [c7S2]).2 =
      .err .returnFromNonFunction ∧
    SemantcicError.duplicateDeclaration "a" ≠
      SemantcicError.returnFromNonFunction := by
  refine ⟨?_, ?_, by decide⟩ <;>
  simp only [c7S1, c7S2, runFileOutcome, runFileBlocked,
    runFileGlobal, runFile, resolveStmts, resolveStmt, resolveExpr,
    resolveExprArgs, resolvePureFn, implResolveFn, resolveIf, resolveBlock,
    resolveClassMethods, Resolver.new, Resolver.declare, Resolver.define,
    Resolver.declareDefineParams, Resolver.resolveLocalVar,
    Resolver.beginScope, Resolver.endScope, Resolver.resolveFnBefore,
    Resolver.resolveFnAfter, FnDeclArgs.name, FnDeclArgs.body,
    FnDeclArgs.params, FMap.empty, FMap.insert, FMap.contains,
    interpretLoop, visitStmt, evalExpr, invoke, invoke_user_fn, bindParams,
    interpret_stmts, interpret_stmts_with_scope, visitIf, runWhile,
    Interp.new, Interp.lookup_resolved, validate_arities, classMethodTable,
    Env.new, Env.from_parent, Env.alloc, Env.get, Env.contains, Env.define,
    Env.assign, Env.parentUpgrade, Env.ancestor, Env.get_resolved,
    LoxObj.from_lit, LoxValue.from_lit, LoxObj.is_truthy, LoxObj.bool,
    LoxObj.nil, LoxObj.f, LoxFn.from_decl, LoxUserFn.from_def,
    LoxUserFn.body, LoxUserFn.params, LoxUserFn.closure, LoxFn.bind,
    LoxUserFn.bind, LoxInstance.get, LoxInstance.set, LoxClass.find_method,
    LoxClass.methods, LoxClass.name, alistInsert, List.find?,
    logic.obj_eq, logic.obj_cmp, logic.obj_plus, logic.obj_minus,
    logic.obj_div, logic.obj_mul, LoxObj.as_value, LoxObj.as_num,
    List.findIdx?_nil, List.findIdx?_cons, List.get?, List.set,
    List.head?, List.tail, Option.getD, Option.map, List.length,
    List.foldl, Option.isSome, List.append, HAppend.hAppend,
    Option.orElse, String.reduceEq, reduceCtorEq, reduceIte,
    Nat.reduceAdd, Option.some.injEq, VarUseData.mk.injEq,
    Bool.true_eq_false, Bool.false_eq_true, Nat.reduceEqDiff, false_and,
    and_false, true_and, and_true, and_self, if_true, if_false, ite_true,
    ite_false, eq_self_iff_true, Option.some_bind, Option.none_bind,
    Option.bind_none, List.get?_cons_zero, List.get?_cons_succ,
    List.get?_nil, decide_False, decide_True, Append.append,
    List.cons_append, List.nil_append]

/-- C8 counterexample. The claim says `var a = a;` fails resolution with
`RecursiveVariableDeclaration`, citing the spec's own example, and never
executes. At global scope the resolver tracks nothing (`declare` is a
no-op when the scope stack is empty), so the program resolves cleanly,
executes, and fails only at runtime with `Undefined`. -/
theorem c8_global_passes_resolution :
    runFileBlocked 8 c8GlobalProg = none ∧
    runFileOutcome 8 c8GlobalProg = some (.err (.undefined "a")) := by
  refine ⟨?_, ?_⟩ <;>
  simp only [c8GlobalProg, runFileOutcome, runFileBlocked,
    runFileGlobal, runFile, resolveStmts, resolveStmt, resolveExpr,
    resolveExprArgs, resolvePureFn, implResolveFn, resolveIf, resolveBlock,
    resolveClassMethods, Resolver.new, Resolver.declare, Resolver.define,
    Resolver.declareDefineParams, Resolver.resolveLocalVar,
    Resolver.beginScope, Resolver.endScope, Resolver.resolveFnBefore,
    Resolver.resolveFnAfter, FnDeclArgs.name, FnDeclArgs.body,
    FnDeclArgs.params, FMap.empty, FMap.insert, FMap.contains,
    interpretLoop, visitStmt, evalExpr, invoke, invoke_user_fn, bindParams,
    interpret_stmts, interpret_stmts_with_scope, visitIf, runWhile,
    Interp.new, Interp.lookup_resolved, validate_arities, classMethodTable,
    Env.new, Env.from_parent, Env.alloc, Env.get, Env.contains, Env.define,
    Env.assign, Env.parentUpgrade, Env.ancestor, Env.get_resolved,
    LoxObj.from_lit, LoxValue.from_lit, LoxObj.is_truthy, LoxObj.bool,
    LoxObj.nil, LoxObj.f, LoxFn.from_decl, LoxUserFn.from_def,
    LoxUserFn.body, LoxUserFn.params, LoxUserFn.closure, LoxFn.bind,
    LoxUserFn.bind, LoxInstance.get, LoxInstance.set, LoxClass.find_method,
    LoxClass.methods, LoxClass.name, alistInsert, List.find?,
    logic.obj_eq, logic.obj_cmp, logic.obj_plus, logic.obj_minus,
    logic.obj_div, logic.obj_mul, LoxObj.as_value, LoxObj.as_num,
    List.findIdx?_nil, List.findIdx?_cons, List.get?, List.set,
    List.head?, List.tail, Option.getD, Option.map, List.length,
    List.foldl, Option.isSome, List.append, HAppend.hAppend,
    Option.orElse, String.reduceEq, reduceCtorEq, reduceIte,
    Nat.reduceAdd, Option.some.injEq, VarUseData.mk.injEq,
    Bool.true_eq_false, Bool.false_eq_true, Nat.reduceEqDiff, false_and,
    and_false, true_and, and_true, and_self, if_true, if_false, ite_true,
    ite_false, eq_self_iff_true, Option.some_bind, Option.none_bind,
    Option.bind_none, List.get?_cons_zero, List.get?_cons_succ,
    List.get?_nil, decide_False, decide_True, Append.append,
    List.cons_append, List.nil_append]

/-! ### Helper lemmas -/

theorem overlay_none (c : Cache) : overlay (fun _ => none) c = c := rfl

theorem overlay_overlay (pv2 pv1 : VarUseData → Option Nat) (c : Cache) :
    overlay pv2 (overlay pv1 c) =
      overlay (fun v => (pv2 v).orElse (fun _ => pv1 v)) c := by
  funext v
  simp only [overlay]
  cases pv2 v <;> rfl

theorem overlay_idem (pv : VarUseData → Option Nat) (c : Cache) :
    overlay pv (overlay pv c) = overlay pv c := by
  rw [overlay_overlay]
  funext v
  simp only [overlay]
  cases pv v <;> rfl

theorem insert_as_overlay (c : Cache) (k : VarUseData) (d : Nat) :
    FMap.insert c k d = overlay (fun u => if u = k then some d else none) c := by
  funext u
  simp only [FMap.insert, overlay]
  by_cases hu : u = k <;> simp [hu]

theorem hasTrace_const (r0 : RRes) : HasTrace (fun st => (st, r0)) := by
  intro sc ft ct
  exact ⟨sc, ft, ct, fun _ => none, r0, fun c => by rw [overlay_none]⟩

theorem hasTrace_seq {t1 t2 : Resolver → Resolver × RRes}
    (h1 : HasTrace t1) (h2 : HasTrace t2) :
    HasTrace (fun st =>
      match t1 st with
      | (st1, .ok) => t2 st1
      | (st1, r1) => (st1, r1)) := by
  intro sc ft ct
  obtain ⟨sc2, ft2, ct2, pv1, r1, hs1⟩ := h1 sc ft ct
  cases r1 with
  | ok =>
    obtain ⟨sc3, ft3, ct3, pv2, r2, hs2⟩ := h2 sc2 ft2 ct2
    refine ⟨sc3, ft3, ct3, fun v => (pv2 v).orElse (fun _ => pv1 v), r2,
      fun c => ?_⟩
    simp only [hs1 c, hs2 (overlay pv1 c), overlay_overlay]
  | err e =>
    exact ⟨sc2, ft2, ct2, pv1, .err e, fun c => by simp only [hs1 c]⟩
  | timeout =>
    exact ⟨sc2, ft2, ct2, pv1, .timeout, fun c => by simp only [hs1 c]⟩

theorem hasTrace_localVar (v : VarUseData) :
    HasTrace (fun st => (st.resolveLocalVar v, .ok)) := by
  intro sc ft ct
  cases hidx : sc.findIdx? (fun s => (s v.name).isSome) with
  | none =>
    refine ⟨sc, ft, ct, fun _ => none, .ok, fun c => ?_⟩
    simp [Resolver.resolveLocalVar, hidx, overlay_none]
  | some d =>
    refine ⟨sc, ft, ct, fun u => if u = v then some d else none, .ok,
      fun c => ?_⟩
    simp [Resolver.resolveLocalVar, hidx, insert_as_overlay]

theorem hasTrace_define (name : String) :
    HasTrace (fun st => (st.define name, .ok)) := by
  intro sc ft ct
  cases sc with
  | nil =>
    exact ⟨[], ft, ct, fun _ => none, .ok,
      fun c => by simp [Resolver.define, overlay_none]⟩
  | cons s rest =>
    exact ⟨s.insert name true :: rest, ft, ct, fun _ => none, .ok,
      fun c => by simp [Resolver.define, overlay_none]⟩

theorem hasTrace_declareThen (name : String)
    {t : Resolver → Resolver × RRes} (h : HasTrace t) :
    HasTrace (fun st =>
      match st.declare name with
      | (st1, some e) => (st1, .err e)
      | (st1, Option.none) => t st1) := by
  intro sc ft ct
  cases sc with
  | nil =>
    obtain ⟨sc2, ft2, ct2, pv, r, hs⟩ := h [] ft ct
    exact ⟨sc2, ft2, ct2, pv, r,
      fun c => by simp only [Resolver.declare, hs c]⟩
  | cons s rest =>
    by_cases hdup : (s name).isSome
    · refine ⟨s :: rest, ft, ct, fun _ => none,
        .err (.duplicateDeclaration name), fun c => ?_⟩
      simp [Resolver.declare, hdup, overlay_none]
    · obtain ⟨sc2, ft2, ct2, pv, r, hs⟩ := h (s.insert name false :: rest) ft ct
      refine ⟨sc2, ft2, ct2, pv, r, fun c => ?_⟩
      simp only [Resolver.declare, hdup, Bool.false_eq_true, if_false,
        ite_false, hs c]

theorem hasTrace_preDefine (name : String)
    {t : Resolver → Resolver × RRes} (h : HasTrace t) :
    HasTrace (fun st => t (st.define name)) := by
  intro sc ft ct
  cases sc with
  | nil =>
    obtain ⟨sc2, ft2, ct2, pv, r, hs⟩ := h [] ft ct
    exact ⟨sc2, ft2, ct2, pv, r, fun c => by simp only [Resolver.define, hs c]⟩
  | cons s rest =>
    obtain ⟨sc2, ft2, ct2, pv, r, hs⟩ := h (s.insert name true :: rest) ft ct
    exact ⟨sc2, ft2, ct2, pv, r, fun c => by simp only [Resolver.define, hs c]⟩

theorem hasTrace_scopeWrap {t : Resolver → Resolver × RRes}
    (h : HasTrace t) :
    HasTrace (fun st =>
      match t st.beginScope with
      | (st1, r) => (st1.endScope, r)) := by
  intro sc ft ct
  obtain ⟨sc2, ft2, ct2, pv, r, hs⟩ := h (FMap.empty :: sc) ft ct
  exact ⟨sc2.tail, ft2, ct2, pv, r,
    fun c => by simp only [Resolver.beginScope, Resolver.endScope, hs c]⟩

theorem declareDefineParams_core :
    ∀ (ps : List String) (sc : List Scope) (ft : LoxFnType)
      (ct : ClassType), ∃ sc2 r, ∀ c : Cache,
      Resolver.declareDefineParams ⟨sc, ft, ct, c⟩ ps = (⟨sc2, ft, ct, c⟩, r) := by
  intro ps
  induction ps with
  | nil =>
    intro sc ft ct
    exact ⟨sc, Option.none, fun c => rfl⟩
  | cons p tl ih =>
    intro sc ft ct
    cases sc with
    | nil =>
      obtain ⟨sc2, r, hs⟩ := ih [] ft ct
      exact ⟨sc2, r, fun c => by
        simp only [Resolver.declareDefineParams, Resolver.declare,
          Resolver.define, hs c]⟩
    | cons s rest =>
      by_cases hdup : (s p).isSome
      · refine ⟨s :: rest, some (.duplicateDeclaration p), fun c => ?_⟩
        simp [Resolver.declareDefineParams, Resolver.declare, hdup]
      · obtain ⟨sc2, r, hs⟩ :=
          ih ((s.insert p false).insert p true :: rest) ft ct
        refine ⟨sc2, r, fun c => ?_⟩
        simp only [Resolver.declareDefineParams, Resolver.declare, hdup,
          Bool.false_eq_true, if_false, ite_false, Resolver.define, hs c]

theorem hasTrace_paramsThen (ps : List String)
    {t : Resolver → Resolver × RRes} (h : HasTrace t) :
    HasTrace (fun st =>
      match st.declareDefineParams ps with
      | (st1, some e) => (st1, .err e)
      | (st1, Option.none) => t st1) := by
  intro sc ft ct
  obtain ⟨sc2, r, hs⟩ := declareDefineParams_core ps sc ft ct
  cases r with
  | none =>
    obtain ⟨sc3, ft3, ct3, pv, r2, ht⟩ := h sc2 ft ct
    exact ⟨sc3, ft3, ct3, pv, r2, fun c => by simp only [hs c, ht c]⟩
  | some e =>
    exact ⟨sc2, ft, ct, fun _ => none, .err e,
      fun c => by simp only [hs c, overlay_none]⟩

theorem resolver_hasTrace : ∀ fuel : Nat,
    (∀ e, HasTrace (fun st => resolveExpr fuel st e)) ∧
    (∀ l, HasTrace (fun st => resolveExprArgs fuel st l)) ∧
    (∀ s, HasTrace (fun st => resolveStmt fuel st s)) ∧
    (∀ a, HasTrace (fun st => resolveIf fuel st a)) ∧
    (∀ l, HasTrace (fun st => resolveBlock fuel st l)) ∧
    (∀ l, HasTrace (fun st => resolveStmts fuel st l)) ∧
    (∀ f ftype, HasTrace (fun st => resolvePureFn fuel st f ftype)) ∧
    (∀ f, HasTrace (fun st => implResolveFn fuel st f)) ∧
    (∀ ms, HasTrace (fun st => resolveClassMethods fuel st ms)) := by
  intro fuel
  induction fuel with
  | zero =>
    exact ⟨fun _ => hasTrace_const .timeout, fun _ => hasTrace_const .timeout,
      fun _ => hasTrace_const .timeout, fun _ => hasTrace_const .timeout,
      fun _ => hasTrace_const .timeout, fun _ => hasTrace_const .timeout,
      fun _ _ => hasTrace_const .timeout, fun _ => hasTrace_const .timeout,
      fun _ => hasTrace_const .timeout⟩
  | succ fuel ih =>
    obtain ⟨ihE, ihArgs, ihStmt, ihIf, ihBlock, ihStmts, ihPure, ihImpl,
      ihMeths⟩ := ih
    refine ⟨?_, ?_, ?_, ?_, ?_, ?_, ?_, ?_, ?_⟩
    · intro e
      cases e with
      | literal lit => exact hasTrace_const .ok
      | unary op e1 => exact ihE e1
      | grouping e1 => exact ihE e1
      | binary l op r => exact hasTrace_seq (ihE l) (ihE r)
      | logic l op r => exact hasTrace_seq (ihE l) (ihE r)
      | varUse v =>
        intro sc ft ct
        cases sc with
        | nil =>
          obtain ⟨sc2, ft2, ct2, pv, r, hs⟩ := hasTrace_localVar v [] ft ct
          exact ⟨sc2, ft2, ct2, pv, r, fun c => hs c⟩
        | cons s rest =>
          by_cases hrec : s v.name = some false
          · refine ⟨s :: rest, ft, ct, fun _ => none,
              .err (.recursiveVariableDeclaration v.name), fun c => ?_⟩
            show (if s v.name = some false then _ else _) = _
            rw [if_pos hrec, overlay_none]
          · obtain ⟨sc2, ft2, ct2, pv, r, hs⟩ :=
              hasTrace_localVar v (s :: rest) ft ct
            refine ⟨sc2, ft2, ct2, pv, r, fun c => ?_⟩
            show (if s v.name = some false then _ else _) = _
            rw [if_neg hrec]
            exact hs c
      | assign a e1 => exact hasTrace_seq (ihE e1) (hasTrace_localVar a)
      | call callee args =>
        cases args with
        | none => exact hasTrace_seq (ihE callee) (hasTrace_const .ok)
        | some l => exact hasTrace_seq (ihE callee) (ihArgs l)
      | get body n => exact ihE body
      | set body n value => exact hasTrace_seq (ihE body) (ihE value)
    · intro l
      cases l with
      | nil => exact hasTrace_const .ok
      | cons a tl => exact hasTrace_seq (ihE a) (ihArgs tl)
    · intro s
      cases s with
      | exprStmt e => exact ihE e
      | print e => exact ihE e
      | varDecl name init =>
        exact hasTrace_declareThen name
          (hasTrace_seq (ihE init) (hasTrace_define name))
      | fnDecl f =>
        exact hasTrace_declareThen f.name
          (hasTrace_preDefine f.name (ihPure f .fn))
      | ifStmt args => exact ihIf args
      | retStmt e =>
        intro sc ft ct
        by_cases hft : ft = LoxFnType.none
        · refine ⟨sc, ft, ct, fun _ => none, .err .returnFromNonFunction,
            fun c => ?_⟩
          show (if ft = LoxFnType.none then _ else _) = _
          rw [if_pos hft, overlay_none]
        · obtain ⟨sc2, ft2, ct2, pv, r, hs⟩ := ihE e sc ft ct
          refine ⟨sc2, ft2, ct2, pv, r, fun c => ?_⟩
          show (if ft = LoxFnType.none then _ else _) = _
          rw [if_neg hft]
          exact hs c
      | whileStmt cond block =>
        exact hasTrace_seq (ihE cond) (ihBlock block)
      | blockStmt stmts => exact ihBlock stmts
      | classDecl name methods =>
        intro sc ft ct
        cases sc with
        | nil =>
          obtain ⟨sc2, ft2, ct2, pv, r, hs⟩ :=
            ihMeths methods [] ft .classType
          cases r with
          | ok =>
            refine ⟨sc2, ft2, ct, pv, .ok, fun c => ?_⟩
            show (match resolveClassMethods fuel _ methods with
              | (st2, .ok) => _
              | (st2, r2) => (st2, r2)) = _
            dsimp only [Resolver.define]
            simp only [hs c]
          | err e =>
            refine ⟨sc2, ft2, ct2, pv, .err e, fun c => ?_⟩
            show (match resolveClassMethods fuel _ methods with
              | (st2, .ok) => _
              | (st2, r2) => (st2, r2)) = _
            dsimp only [Resolver.define]
            simp only [hs c]
          | timeout =>
            refine ⟨sc2, ft2, ct2, pv, .timeout, fun c => ?_⟩
            show (match resolveClassMethods fuel _ methods with
              | (st2, .ok) => _
              | (st2, r2) => (st2, r2)) = _
            dsimp only [Resolver.define]
            simp only [hs c]
        | cons s rest =>
          by_cases hdup : (s name).isSome
          · refine ⟨s :: rest, ft, .classType, fun _ => none,
              .err (.duplicateDeclaration name), fun c => ?_⟩
            show (match Resolver.declare _ name with
              | (st1, some e) => (st1, RRes.err e)
              | (st1, Option.none) => _) = _
            simp only [Resolver.declare, hdup, if_true, ite_true,
              overlay_none]
          · obtain ⟨sc2, ft2, ct2, pv, r, hs⟩ :=
              ihMeths methods (((s.insert name false).insert name true)
                :: rest) ft .classType
            cases r with
            | ok =>
              refine ⟨sc2, ft2, ct, pv, .ok, fun c => ?_⟩
              show (match Resolver.declare _ name with
                | (st1, some e) => (st1, RRes.err e)
                | (st1, Option.none) => _) = _
              simp only [Resolver.declare, hdup, Bool.false_eq_true,
                if_false, ite_false, Resolver.define, hs c]
            | err e =>
              refine ⟨sc2, ft2, ct2, pv, .err e, fun c => ?_⟩
              show (match Resolver.declare _ name with
                | (st1, some e) => (st1, RRes.err e)
                | (st1, Option.none) => _) = _
              simp only [Resolver.declare, hdup, Bool.false_eq_true,
                if_false, ite_false, Resolver.define, hs c]
            | timeout =>
              refine ⟨sc2, ft2, ct2, pv, .timeout, fun c => ?_⟩
              show (match Resolver.declare _ name with
                | (st1, some e) => (st1, RRes.err e)
                | (st1, Option.none) => _) = _
              simp only [Resolver.declare, hdup, Bool.false_eq_true,
                if_false, ite_false, Resolver.define, hs c]
    · intro a
      cases a with
      | mk cond ifTrue ifFalse =>
        cases ifFalse with
        | none =>
          exact hasTrace_seq (ihE cond)
            (hasTrace_seq (ihStmts ifTrue) (hasTrace_const .ok))
        | some eb =>
          cases eb with
          | elseIf args2 =>
            exact hasTrace_seq (ihE cond)
              (hasTrace_seq (ihStmts ifTrue) (ihIf args2))
          | justElse stmts =>
            exact hasTrace_seq (ihE cond)
              (hasTrace_seq (ihStmts ifTrue) (ihBlock stmts))
    · intro l
      exact hasTrace_scopeWrap (ihStmts l)
    · intro l
      cases l with
      | nil => exact hasTrace_const .ok
      | cons s tl => exact hasTrace_seq (ihStmt s) (ihStmts tl)
    · intro f ftype
      intro sc ft ct
      obtain ⟨sc2, ft2, ct2, pv, r, hs⟩ := ihImpl f (FMap.empty :: sc) ftype ct
      refine ⟨sc2.tail, ft, ct2, pv, r, fun c => ?_⟩
      dsimp only [resolvePureFn, Resolver.resolveFnBefore,
        Resolver.resolveFnAfter]
      simp only [hs c]
    · intro f
      cases f with
      | mk n body params =>
        exact hasTrace_paramsThen (params.getD []) (ihStmts body)
    · intro ms
      cases ms with
      | nil => exact hasTrace_const .ok
      | cons m tl =>
        intro sc ft ct
        obtain ⟨sc2, ft2, ct2, pv, r, hs⟩ :=
          ihImpl m (FMap.empty.insert "@" true :: sc) .method ct
        cases r with
        | ok =>
          obtain ⟨sc3, ft3, ct3, pv2, r2, hs2⟩ := ihMeths tl sc2.tail ft ct2
          refine ⟨sc3, ft3, ct3,
            fun v => (pv2 v).orElse (fun _ => pv v), r2, fun c => ?_⟩
          dsimp only [resolveClassMethods, Resolver.resolveFnBefore,
            Resolver.resolveFnAfter]
          simp only [hs c]
          simp only [hs2 (overlay pv c), overlay_overlay]
        | err e =>
          refine ⟨sc2.tail, ft, ct2, pv, .err e, fun c => ?_⟩
          dsimp only [resolveClassMethods, Resolver.resolveFnBefore,
            Resolver.resolveFnAfter]
          simp only [hs c]
        | timeout =>
          refine ⟨sc2.tail, ft, ct2, pv, .timeout, fun c => ?_⟩
          dsimp only [resolveClassMethods, Resolver.resolveFnBefore,
            Resolver.resolveFnAfter]
          simp only [hs c]

theorem resolveStmts_err_append :
    ∀ (fuel : Nat) (ss1 ss2 : List Stmt) (st st1 : Resolver)
      (e : SemantcicError),
      resolveStmts fuel st ss1 = (st1, .err e) →
      resolveStmts fuel st (ss1 ++ ss2) = (st1, .err e) := by
  intro fuel
  induction fuel with
  | zero =>
    intro ss1 ss2 st st1 e h
    simp only [resolveStmts] at h
    exact absurd (congrArg Prod.snd h) (by simp)
  | succ fuel ih =>
    intro ss1 ss2 st st1 e h
    cases ss1 with
    | nil =>
      simp only [resolveStmts] at h
      exact absurd (congrArg Prod.snd h) (by simp)
    | cons s tl =>
      simp only [resolveStmts] at h ⊢
      rcases hstep : resolveStmt fuel st s with ⟨stA, rA⟩
      rw [hstep] at h
      cases rA with
      | ok => exact ih tl ss2 stA st1 e h
      | err e2 => cases h; rfl
      | timeout => exact absurd (congrArg Prod.snd h) (by simp)

theorem env_assign_chain :
    ∀ (h : EnvHeap) (r : EnvRef) (rs : List EnvRef) (name : String)
      (obj : LoxObj),
      EnvChain h r rs →
      ∀ fuel : Nat, rs.length ≤ fuel →
      ((∃ t, rs.find? (fun u => Env.contains h u name) = some t ∧
         Env.assign h fuel r name obj = (envSetAt h t name obj, .ok ())) ∨
       (rs.find? (fun u => Env.contains h u name) = none ∧
         Env.assign h fuel r name obj = (h, .err (.undefined name)))) := by
  intro h r rs name obj hc
  induction hc with
  | root r e hget hpar =>
    rw [List.get?_eq_getElem?] at hget
    intro fuel hlen
    cases fuel with
    | zero => simp at hlen
    | succ f =>
      by_cases hcont : Env.contains h r name
      · refine Or.inl ⟨r, ?_, ?_⟩
        · simp [List.find?, hcont]
        · have hsome : (e.map name).isSome := by
            simpa [Env.contains, hget] using hcont
          simp [Env.assign, hget, hsome, envSetAt]
      · have hnone : (e.map name).isSome = false := by
          simpa [Env.contains, hget] using hcont
        refine Or.inr ⟨?_, ?_⟩
        · simp [List.find?, hcont]
        · simp [Env.assign, hget, hnone, hpar]
  | step r e p rs hget hpar hchain ih =>
    rw [List.get?_eq_getElem?] at hget
    intro fuel hlen
    cases fuel with
    | zero => simp at hlen
    | succ f =>
      by_cases hcont : Env.contains h r name
      · refine Or.inl ⟨r, ?_, ?_⟩
        · simp [List.find?, hcont]
        · have hsome : (e.map name).isSome := by
            simpa [Env.contains, hget] using hcont
          simp [Env.assign, hget, hsome, envSetAt]
      · have hnone : (e.map name).isSome = false := by
          simpa [Env.contains, hget] using hcont
        have hlen2 : rs.length ≤ f := by
          simpa using Nat.le_of_succ_le_succ hlen
        have step : Env.assign h (f + 1) r name obj =
            Env.assign h f p name obj := by
          simp [Env.assign, hget, hnone, hpar]
        rcases ih f hlen2 with ⟨t, hfind, hassign⟩ | ⟨hfind, hassign⟩
        · exact Or.inl ⟨t, by simp [List.find?, hcont, hfind],
            by rw [step, hassign]⟩
        · exact Or.inr ⟨by simp [List.find?, hcont, hfind],
            by rw [step, hassign]⟩


/-- C9. Re-running resolution over the same, unmodified statement list
(with a fresh `Resolver::new` over the cache left by the first run, as the
driver does) produces a distance map identical to the first run's, and the
same result: the resolver only inserts into the cache, each variable use
getting a distance determined by the scope stack alone, so the second run
re-inserts exactly the entries already present. Stated for every fuel,
every program and every starting cache. -/
theorem c9_resolve_idempotent :
    ∀ (fuel : Nat) (ss : List Stmt) (c0 : Cache),
      (resolveStmts fuel
        (Resolver.new ((resolveStmts fuel (Resolver.new c0) ss).1.caches))
        ss).1.caches =
        (resolveStmts fuel (Resolver.new c0) ss).1.caches ∧
      (resolveStmts fuel
        (Resolver.new ((resolveStmts fuel (Resolver.new c0) ss).1.caches))
        ss).2 =
        (resolveStmts fuel (Resolver.new c0) ss).2 := by
  intro fuel ss c0
  obtain ⟨sc2, ft2, ct2, pv, r, hs⟩ :=
    (resolver_hasTrace fuel).2.2.2.2.2.1 ss [] .none .none
  unfold Resolver.new
  simp only [hs c0]
  simp only [hs (overlay pv c0), overlay_idem]
  refine ⟨?_, ?_⟩ <;> first | rfl | trivial

/-- C7 amended. Resolution is fail-fast, not collecting: `resolve_stmts`
stops at the first semantic error and its result carries that single error
(the statements after the failing one are never looked at), and any
resolution error still blocks evaluation (the driver returns before
interpreting anything). -/
theorem c7_resolution_fail_fast :
    (∀ (fuel : Nat) (ss1 ss2 : List Stmt) (st st1 : Resolver)
       (e : SemantcicError),
       resolveStmts fuel st ss1 = (st1, .err e) →
       resolveStmts fuel st (ss1 ++ ss2) = (st1, .err e)) ∧
    (∀ (fuel : Nat) (ss : List Stmt) (st1 : Resolver) (e : SemantcicError),
       resolveStmts fuel (Resolver.new FMap.empty) ss = (st1, .err e) →
       runFile fuel ss = .resolutionError e) := by
  constructor
  · exact fun fuel ss1 ss2 st st1 e h =>
      resolveStmts_err_append fuel ss1 ss2 st st1 e h
  · intro fuel ss st1 e h
    simp only [runFile, h]

/-- Witness for C7 amended: resolving the two-error program stops at the
duplicate declaration of the first statement, never reaching the
top-level-return error of the second, and the driver blocks on it. -/
theorem c7_resolution_fail_fast_witness :
    resolveStmts 50 (Resolver.new FMap.empty) ([c7S1] ++ [c7S2]) =
      ((resolveStmts 50 (Resolver.new FMap.empty) [c7S1]).1,
        .err (.duplicateDeclaration "a")) ∧
    runFile 50 [c7S1, c7S2] =
      .resolutionError (.duplicateDeclaration "a") := by
  have h2 : (resolveStmts 50 (Resolver.new FMap.empty) [c7S1]).2 =
      .err (.duplicateDeclaration "a") := by
    simp only [c7S1, resolveStmts, resolveStmt, resolveExpr, resolveBlock,
      Resolver.new, Resolver.declare, Resolver.define, Resolver.beginScope,
      Resolver.endScope, FMap.empty, FMap.insert, Option.isSome,
      String.reduceEq, reduceCtorEq, reduceIte, if_true, if_false,
      ite_true, ite_false]
  have h1 : resolveStmts 50 (Resolver.new FMap.empty) [c7S1] =
      ((resolveStmts 50 (Resolver.new FMap.empty) [c7S1]).1,
        .err (.duplicateDeclaration "a")) := by
    rw [← h2]
  constructor
  · exact c7_resolution_fail_fast.1 50 [c7S1] [c7S2] _ _ _ h1
  · exact c7_resolution_fail_fast.2 50 [c7S1, c7S2] _ _
      (c7_resolution_fail_fast.1 50 [c7S1] [c7S2] _ _ _ h1)

/-- C8 amended. Inside any local scope, a variable declaration whose
initializer reads the declared name fails resolution with
`RecursiveVariableDeclaration` (and, run through the driver, the program
`{ var a = a; }` is blocked before executing anything); at GLOBAL scope
the resolver tracks nothing, so the spec example `var a = a;` passes
resolution and fails only at runtime with `Undefined` (see the
counterexample theorem). -/
theorem c8_local_recursive_declaration_errors :
    (∀ (fuel : Nat) (st : Resolver) (name : String) (id : Nat)
       (s : Scope) (rest : List Scope),
       st.scopes = s :: rest → s name = none →
       (resolveStmt (fuel + 2) st
         (.varDecl name (.varUse ⟨name, id⟩))).2 =
         .err (.recursiveVariableDeclaration name)) ∧
    runFileBlocked 8 c8LocalProg =
      some (.recursiveVariableDeclaration "a") := by
  constructor
  · intro fuel st name id s rest hs hname
    simp [resolveStmt, Resolver.declare, hs, hname, resolveExpr,
      Resolver.resolveLocalVar, FMap.insert]
  · simp only [c8LocalProg, runFileBlocked, runFile, resolveStmts,
      resolveStmt, resolveExpr, resolveBlock, Resolver.new,
      Resolver.declare, Resolver.define, Resolver.beginScope,
      Resolver.endScope, Resolver.resolveLocalVar, FMap.empty, FMap.insert,
      List.head?, Option.isSome, String.reduceEq, reduceCtorEq, reduceIte,
      if_true, if_false, ite_true, ite_false, Option.some.injEq,
      Bool.true_eq_false, Bool.false_eq_true]

/-- Witness for C8 amended: in a state with one (empty) local scope, the
declaration `var a = a;` resolves to the recursive-declaration error. -/
theorem c8_local_recursive_declaration_errors_witness :
    (resolveStmt 5 ⟨[FMap.empty], .none, .none, FMap.empty⟩
      (.varDecl "a" (.varUse ⟨"a", 0⟩))).2 =
      .err (.recursiveVariableDeclaration "a") :=
  c8_local_recursive_declaration_errors.1 3 _ "a" 0 FMap.empty [] rfl rfl

/-- C6 amended. An equality or inequality comparison succeeds exactly when
both operands are primitive values of the same kind among Number, Bool and
String, yielding a boolean; every other pair of operands — two values of
different kinds, any Nil operand (even Nil == Nil), and any
function/class/instance operand — raises `MismatchedType` instead of
comparing as unequal. Quantified over ALL runtime objects, fed to the
binary visitor through two variable reads. -/
theorem c6_same_kind_equality_only :
    ∀ (op : BinaryOper) (o1 o2 : LoxObj),
      op = .equal ∨ op = .notEqual →
      ((samePrimitiveKindObj o1 o2 = true →
        ∃ b : Bool, evalBinOn op o1 o2 = .ok (.value (.bool b))) ∧
       (samePrimitiveKindObj o1 o2 = false →
        evalBinOn op o1 o2 = .err .mismatchedType)) := by
  rintro op o1 o2 (rfl | rfl) <;>
  constructor <;>
  intro hk <;>
  cases o1 <;> cases o2 <;>
  (rename_i v1 v2
   cases v1 <;> cases v2 <;>
   simp_all [samePrimitiveKindObj, samePrimitiveKind, evalBinOn,
     binOperandState, evalExpr, Interp.lookup_resolved, Env.get,
     FMap.empty, FMap.insert, LoxObj.as_value, logic.obj_eq,
     LoxObj.bool])

/-- Witness for C6 amended: `3 == 3` (same primitive kind) yields a
boolean, while comparing a function against the number 0 (a
non-primitive operand) raises `MismatchedType`. -/
theorem c6_same_kind_equality_only_witness :
    (∃ b : Bool,
      evalBinOn .equal (.value (.number 3)) (.value (.number 3)) =
        .ok (.value (.bool b))) ∧
    evalBinOn .equal (.callable .clock) (.value (.number 0)) =
      .err .mismatchedType :=
  ⟨(c6_same_kind_equality_only .equal (.value (.number 3))
      (.value (.number 3)) (Or.inl rfl)).1 rfl,
   (c6_same_kind_equality_only .equal (.callable .clock)
      (.value (.number 0)) (Or.inl rfl)).2 rfl⟩

/-- C10. Assignment is dynamic and ignores the distance map: on any
environment chain, `Env::assign` (the operation `visit_assign_expr` calls)
overwrites the binding in the NEAREST frame of the chain that binds the
name, or errors `Undefined` if none does; and concretely, evaluating
`x = 5` in `c10I` — whose distance map sends this assignment's variable
use to distance 2, the root — writes frame 1 (the nearest binder, which
becomes 5) and leaves the root frame 2 untouched (still 9), yielding the
assigned value. -/
theorem c10_assign_writes_nearest_frame :
    (∀ (h : EnvHeap) (r : EnvRef) (rs : List EnvRef) (name : String)
       (obj : LoxObj),
       EnvChain h r rs →
       ∀ fuel : Nat, rs.length ≤ fuel →
       ((∃ t, rs.find? (fun u => Env.contains h u name) = some t ∧
          Env.assign h fuel r name obj = (envSetAt h t name obj, .ok ())) ∨
        (rs.find? (fun u => Env.contains h u name) = none ∧
          Env.assign h fuel r name obj = (h, .err (.undefined name))))) ∧
    c10Result.2 = .ok (.value (.number 5)) ∧
    (c10Result.1.envHeap.get? 1).map (fun e => e.map "x") =
      some (some (.value (.number 5))) ∧
    (c10Result.1.envHeap.get? 2).map (fun e => e.map "x") =
      some (some (.value (.number 9))) ∧
    c10I.caches ⟨"x", 7⟩ = some 2 :=
  ⟨env_assign_chain, rfl, rfl, rfl, rfl⟩

/-- Witness for C10: on the concrete chain 0 -> 1 -> 2 of `c10Heap`,
`Env::assign` resolves per the nearest-binder characterization. -/
theorem c10_assign_writes_nearest_frame_witness :
    (∃ t, [0, 1, 2].find? (fun u => Env.contains c10Heap u "x") = some t ∧
       Env.assign c10Heap 3 0 "x" (.value (.number 5)) =
         (envSetAt c10Heap t "x" (.value (.number 5)), .ok ())) ∨
    ([0, 1, 2].find? (fun u => Env.contains c10Heap u "x") = none ∧
       Env.assign c10Heap 3 0 "x" (.value (.number 5)) =
         (c10Heap, .err (.undefined "x"))) :=
  c10_assign_writes_nearest_frame.1 c10Heap 0 [0, 1, 2] "x"
    (.value (.number 5))
    (EnvChain.step 0 ⟨FMap.empty, some 1⟩ 1 [1, 2] rfl rfl
      (EnvChain.step 1 ⟨FMap.empty.insert "x" (.value (.number 1)), some 2⟩
        2 [2] rfl rfl
        (EnvChain.root 2
          ⟨FMap.empty.insert "x" (.value (.number 9)), none⟩ rfl rfl)))
    3 (Nat.le_refl 3)

end Loxrs
